import Mathlib

/-!
# Status synchronisation and plugin hooks of the cluster controller

A shallow embedding of `pkg/resources/status/phase.go` (`RegisterPhase`,
`RegisterPhaseWithOrigCluster`) and `internal/controller/plugins.go`
(`preReconcilePluginHooks`, `postReconcilePluginHooks`, `setStatusPluginHook`,
`setPluginClientInContext`, `getPluginClientFromContext`).

Go pointers to clusters are modelled by explicit state passing.  Where a
function receives two `*Cluster` that may point to the same object the state is
a heap of cluster objects; where it receives one, the state is the value of that
object.  Calls to the remote store and to the plugin client are recorded in
traces; what the collaborators answer is a parameter of the functions.
-/

namespace CNPG

/-! ## Data model -/

/-- Go `error` values (a `nil` error is `none : Option Error`). -/
structure Error where
  msg : String
deriving DecidableEq, Repr

/-- `metav1.Time`, as a count of clock ticks; `0` is the zero time (`IsZero`). -/
abbrev Time := Nat

/-- `metav1.ConditionTrue`. -/
def ConditionTrue : String := "True"

/-- `metav1.ConditionFalse`. -/
def ConditionFalse : String := "False"

/-- `metav1.Condition` (the field `Type` is spelled `Type_`). -/
structure Condition where
  Type_ : String
  Status : String
  ObservedGeneration : Int
  LastTransitionTime : Time
  Reason : String
  Message : String
deriving DecidableEq, Repr

/-- Modelled from the spec: the element type of `Status.PluginStatus`, declared
in `api/v1` (not among the sources at hand).  The data model gives an entry as
`{Name, Status(opaque payload)}` and the cluster as holding a list of such
entries; the list holds the entries themselves, not references to them. -/
structure PluginStatus where
  Name : String
  Status : String
deriving DecidableEq, Repr

/-- Modelled from the spec: `apiv1.ClusterStatus`, declared in `api/v1` (not
among the sources at hand).  `Conditions` is a Go slice that may be `nil`
(`none`), and so is `PluginStatus`.  `Other` stands for every remaining status
field, none of which is read or written by the functions below, as field name /
value pairs. -/
structure ClusterStatus where
  Phase : String
  PhaseReason : String
  Conditions : Option (List Condition)
  PluginStatus : Option (List PluginStatus)
  Other : List (String × String)
deriving DecidableEq, Repr

/-- Modelled from the spec: `apiv1.Cluster`, declared in `api/v1` (not among
the sources at hand): identity (namespace and name), the status sub-document,
and `Rest` for everything else (remaining metadata and the spec). -/
structure Cluster where
  Namespace : String
  Name : String
  Rest : List (String × String)
  Status : ClusterStatus
deriving DecidableEq, Repr

/-- The constants of `api/v1` that `RegisterPhaseWithOrigCluster` refers to
(`apiv1.PhaseHealthy`, `apiv1.ConditionClusterReady`, `apiv1.ClusterReady`,
`apiv1.ClusterIsNotReady`).  Their declarations are not among the sources at
hand, so their values are a parameter. -/
structure Vocabulary where
  PhaseHealthy : String
  ConditionClusterReady : String
  ClusterReady : String
  ClusterIsNotReady : String
deriving DecidableEq, Repr

/-- `cluster.DeepCopy()`: a fresh object with the same value. -/
def Cluster.DeepCopy (cluster : Cluster) : Cluster := cluster

/-! ## The remote store -/

/-- A call made on the controller-runtime client. -/
inductive StoreCall where
  /-- `cli.Status().Patch(ctx, obj, client.MergeFrom(base))` -/
  | statusPatch (obj : Cluster) (base : Cluster)
  /-- `cli.Get(ctx, types.NamespacedName{Namespace, Name}, &cl)` -/
  | get (Namespace : String) (Name : String)
deriving DecidableEq, Repr

/-- Whether a store call is a status patch. -/
def StoreCall.isPatch : StoreCall → Bool
  | .statusPatch _ _ => true
  | .get _ _ => false

/-- The store collaborator (`client.Client`).  Each answer may depend on the
calls made so far (first argument).  `StatusPatch hist obj base` is
`cli.Status().Patch(ctx, obj, client.MergeFrom(base))`: it fails with an error,
or succeeds with the object of the store's reply, which the client library
decodes into `obj`.  The object read by `Get` is only logged, so only its error
is kept. -/
structure Client where
  StatusPatch : List StoreCall → Cluster → Cluster → Except Error Cluster
  Get : List StoreCall → String → String → Option Error

/-- How many status patches a trace holds. -/
def patchCount (calls : List StoreCall) : Nat :=
  calls.countP StoreCall.isPatch

/-! ## `k8s.io/apimachinery/pkg/api/meta`

The condition helpers of the apimachinery library that `phase.go` calls. -/

/-- `meta.FindStatusCondition`: the first condition of the given type. -/
def FindStatusCondition (conditions : List Condition) (conditionType : String) :
    Option Condition :=
  conditions.find? (fun c => decide (c.Type_ = conditionType))

/-- The branch of `meta.SetStatusCondition` that appends: the transition time is
set to now when unset. -/
def stampCondition (now : Time) (newCondition : Condition) : Condition :=
  if newCondition.LastTransitionTime = 0 then
    { newCondition with LastTransitionTime := now }
  else newCondition

/-- The branch of `meta.SetStatusCondition` that overwrites an existing
condition: the status (with the transition time, only when the status differs),
then reason, message and observed generation; reports whether anything changed. -/
def overwriteCondition (now : Time) (existing newCondition : Condition) :
    Condition × Bool :=
  let s : Condition × Bool :=
    if existing.Status ≠ newCondition.Status then
      ({ existing with
          Status := newCondition.Status
          LastTransitionTime :=
            if newCondition.LastTransitionTime ≠ 0 then newCondition.LastTransitionTime
            else now }, true)
    else (existing, false)
  let r : Condition × Bool :=
    if s.1.Reason ≠ newCondition.Reason then
      ({ s.1 with Reason := newCondition.Reason }, true)
    else s
  let m : Condition × Bool :=
    if r.1.Message ≠ newCondition.Message then
      ({ r.1 with Message := newCondition.Message }, true)
    else r
  if m.1.ObservedGeneration ≠ newCondition.ObservedGeneration then
    ({ m.1 with ObservedGeneration := newCondition.ObservedGeneration }, true)
  else m

/-- `meta.SetStatusCondition(&conditions, newCondition)` at clock reading `now`:
the first condition of the same type is overwritten in place, and when there is
none the new condition is appended.  Returns the list and `changed`. -/
def SetStatusCondition (now : Time) (newCondition : Condition) :
    List Condition → List Condition × Bool
  | [] => ([stampCondition now newCondition], true)
  | c :: cs =>
    if c.Type_ = newCondition.Type_ then
      ((overwriteCondition now c newCondition).1 :: cs,
        (overwriteCondition now c newCondition).2)
    else
      (c :: (SetStatusCondition now newCondition cs).1,
        (SetStatusCondition now newCondition cs).2)

/-! ## `pkg/resources/status/phase.go` -/

/-- A pointer to a cluster object. -/
abbrev Ptr := Nat

/-- The cluster objects in memory, by address. -/
abbrev Heap := Ptr → Cluster

/-- The heap after a store of `c` into the object at `p`. -/
def Heap.write (heap : Heap) (p : Ptr) (c : Cluster) : Heap :=
  fun q => if q = p then c else heap q

/-- A heap whose object at address `0` is `a` and whose other objects are `b`. -/
def twoObjects (a b : Cluster) : Heap :=
  fun p => if p = 0 then a else b

/-- What a call of `RegisterPhaseWithOrigCluster` leaves behind: the heap, the
store calls it made (in order) and the returned error. -/
structure PhaseOutcome where
  heap : Heap
  calls : List StoreCall
  err : Option Error

/-- What a call on a single cluster object leaves behind: the object, the
store calls made (in order) and the returned error. -/
structure ObjectOutcome where
  cluster : Cluster
  calls : List StoreCall
  err : Option Error
deriving DecidableEq, Repr

/-- The readiness condition built at lines 64-78 of `phase.go`. -/
def readinessCondition (v : Vocabulary) (phase : String) : Condition :=
  if phase = v.PhaseHealthy then
    { Type_ := v.ConditionClusterReady
      Status := ConditionTrue
      ObservedGeneration := 0
      LastTransitionTime := 0
      Reason := v.ClusterReady
      Message := "Cluster is Ready" }
  else
    { Type_ := v.ConditionClusterReady
      Status := ConditionFalse
      ObservedGeneration := 0
      LastTransitionTime := 0
      Reason := v.ClusterIsNotReady
      Message := "Cluster Is Not Ready" }

/-- Lines 57-80 of `phase.go`: the in-memory mutation of `modifiedCluster`. -/
def applyPhase (v : Vocabulary) (now : Time) (modifiedCluster : Cluster)
    (phase reason : String) : Cluster :=
  let conditions : List Condition :=
    match modifiedCluster.Status.Conditions with
    | none => []
    | some cs => cs
  let condition := readinessCondition v phase
  { modifiedCluster with
    Status :=
      { modifiedCluster.Status with
        Phase := phase
        PhaseReason := reason
        Conditions := some (SetStatusCondition now condition conditions).1 } }

/-- The heap when line 80 of `phase.go` is passed: lines 57-80 have written the
object `modifiedCluster` points to, and nothing else. -/
def phaseHeap (v : Vocabulary) (now : Time) (heap : Heap) (modifiedCluster : Ptr)
    (phase reason : String) : Heap :=
  heap.write modifiedCluster (applyPhase v now (heap modifiedCluster) phase reason)

/-- `RegisterPhaseWithOrigCluster`.  `modifiedCluster` and `origCluster` are
pointers into `heap` and may be equal.  `hist` is the trace of store calls made
before this one and `now` the clock reading used by `meta.SetStatusCondition`.
A successful patch stores the reply of the store into `modifiedCluster`; the
read that follows is addressed with the namespace and name found there. -/
def RegisterPhaseWithOrigCluster (v : Vocabulary) (cli : Client) (hist : List StoreCall)
    (now : Time) (heap : Heap) (modifiedCluster origCluster : Ptr)
    (phase reason : String) : PhaseOutcome :=
  let heap1 := phaseHeap v now heap modifiedCluster phase reason
  if heap1 origCluster ≠ heap1 modifiedCluster then
    match cli.StatusPatch hist (heap1 modifiedCluster) (heap1 origCluster) with
    | Except.error err =>
      { heap := heap1
        calls := [StoreCall.statusPatch (heap1 modifiedCluster) (heap1 origCluster)]
        err := some err }
    | Except.ok reply =>
      match cli.Get
          (hist ++ [StoreCall.statusPatch (heap1 modifiedCluster) (heap1 origCluster)])
          reply.Namespace reply.Name with
      | some _err =>
        -- `contextLogger.Error(err, ...)`: logged, then execution goes on
        { heap := heap1.write modifiedCluster reply
          calls := [StoreCall.statusPatch (heap1 modifiedCluster) (heap1 origCluster),
                    StoreCall.get reply.Namespace reply.Name]
          err := none }
      | none =>
        { heap := heap1.write modifiedCluster reply
          calls := [StoreCall.statusPatch (heap1 modifiedCluster) (heap1 origCluster),
                    StoreCall.get reply.Namespace reply.Name]
          err := none }
  else
    { heap := heap1
      calls := []
      err := none }

/-- `RegisterPhase`.  The state is the object `cluster` points to, placed at
address `0`; the snapshot `cluster.DeepCopy()` is a new object, at address `1`,
which nothing refers to once the function returns. -/
def RegisterPhase (v : Vocabulary) (cli : Client) (hist : List StoreCall) (now : Time)
    (cluster : Cluster) (phase reason : String) : ObjectOutcome :=
  let existingCluster := cluster.DeepCopy
  { cluster :=
      (RegisterPhaseWithOrigCluster v cli hist now (twoObjects cluster existingCluster) 0 1
        phase reason).heap 0
    calls :=
      (RegisterPhaseWithOrigCluster v cli hist now (twoObjects cluster existingCluster) 0 1
        phase reason).calls
    err :=
      (RegisterPhaseWithOrigCluster v cli hist now (twoObjects cluster existingCluster) 0 1
        phase reason).err }

/-! ## `internal/controller/plugins.go` -/

/-- `client.Object`: the sub-object a hook is called for. -/
structure Object where
  name : String
deriving DecidableEq, Repr

/-- `time.Second`, in nanoseconds (`time.Duration` counts nanoseconds). -/
def Second : Int := 1000000000

/-- `ctrl.Result`. -/
structure Result where
  Requeue : Bool
  RequeueAfter : Int
deriving DecidableEq, Repr

/-- Modelled from the spec: `cnpgiClient.ReconcilerHookResult`, declared in
`internal/cnpi/plugin/client` (not among the sources at hand): "carries at least
an outcome signal (continue / request reconciliation stop) and an error". -/
structure ReconcilerHookResult where
  StopReconciliation : Bool
  Err : Option Error
deriving DecidableEq, Repr

/-- Modelled from the spec: the plugin client interface `cnpgiClient.Client`,
declared in `internal/cnpi/plugin/client` (not among the sources at hand), with
the three methods `plugins.go` calls.  The status query returns "a mapping from
plugin name (string) to opaque status payload, or an error"; the Go map is an
association list read with `List.lookup`. -/
structure PluginClient where
  PreReconcile : Cluster → Object → ReconcilerHookResult
  PostReconcile : Cluster → Object → ReconcilerHookResult
  SetClusterStatus : Cluster → List (String × String) × Option Error

/-- A call made on the plugin client. -/
inductive PluginCall where
  | PreReconcile (cluster : Cluster) (object : Object)
  | PostReconcile (cluster : Cluster) (object : Object)
  | SetClusterStatus (cluster : Cluster)
deriving DecidableEq, Repr

/-- Modelled from the spec: the keys of context values.  `PluginClientKey` is
`utils.PluginClientKey`, declared in `pkg/utils` (not among the sources at
hand): "a single well-known key used to carry the plugin client", distinct from
every other key. -/
inductive ContextKey where
  | PluginClientKey
  | other (name : String)
deriving DecidableEq, Repr

/-- A Go value of type `any` as stored in a context: `nil`, a value whose
dynamic type implements `cnpgiClient.Client`, or a value of another type. -/
inductive Any where
  | nil
  | pluginClient (c : PluginClient)
  | other (v : String)

/-- `context.Context`: the background context and `context.WithValue` layers. -/
inductive Context where
  | background
  | withValue (parent : Context) (key : ContextKey) (val : Any)

/-- `ctx.Value(key)`: the value of the innermost layer with that key, else `nil`. -/
def Context.Value : Context → ContextKey → Any
  | .background, _ => Any.nil
  | .withValue parent k val, key => if key = k then val else parent.Value key

/-- A Go run-time panic. -/
structure Panic where
  msg : String
deriving DecidableEq, Repr

/-- Conversion of an interface value of type `cnpgiClient.Client` (possibly the
`nil` interface, `none`) to `any`. -/
def toAny : Option PluginClient → Any
  | none => Any.nil
  | some c => Any.pluginClient c

/-- `setPluginClientInContext`. -/
def setPluginClientInContext (ctx : Context) (client : Option PluginClient) : Context :=
  Context.withValue ctx ContextKey.PluginClientKey (toAny client)

/-- `getPluginClientFromContext`: the single-value type assertion
`ctx.Value(utils.PluginClientKey).(cnpgiClient.Client)` panics on `nil` and on a
value that does not implement the interface. -/
def getPluginClientFromContext (ctx : Context) : Except Panic PluginClient :=
  match ctx.Value ContextKey.PluginClientKey with
  | Any.pluginClient c => Except.ok c
  | Any.nil =>
    Except.error ⟨"interface conversion: interface is nil, not client.Client"⟩
  | Any.other _ =>
    Except.error ⟨"interface conversion: missing method of client.Client"⟩

/-- What a reconcile hook leaves behind: the plugin calls made, and the value
returned or the panic raised. -/
structure HookRun where
  pluginCalls : List PluginCall
  result : Except Panic ReconcilerHookResult

/-- `preReconcilePluginHooks`. -/
def preReconcilePluginHooks (ctx : Context) (cluster : Cluster) (object : Object) :
    HookRun :=
  match getPluginClientFromContext ctx with
  | Except.error p => { pluginCalls := [], result := Except.error p }
  | Except.ok pluginClient =>
    { pluginCalls := [PluginCall.PreReconcile cluster object]
      result := Except.ok (pluginClient.PreReconcile cluster object) }

/-- `postReconcilePluginHooks`. -/
def postReconcilePluginHooks (ctx : Context) (cluster : Cluster) (object : Object) :
    HookRun :=
  match getPluginClientFromContext ctx with
  | Except.error p => { pluginCalls := [], result := Except.error p }
  | Except.ok pluginClient =>
    { pluginCalls := [PluginCall.PostReconcile cluster object]
      result := Except.ok (pluginClient.PostReconcile cluster object) }

/-- One iteration of the loop at lines 61-67 of `plugins.go`, run on the loop
variable `status`: the value the variable holds when the iteration ends. -/
def pluginStatusLoopBody (statuses : List (String × String)) (status : PluginStatus) :
    PluginStatus :=
  match statuses.lookup status.Name with
  | none => status
  | some val => { status with Status := val }

/-- The loop `for _, status := range cluster.Status.PluginStatus` at lines 61-67.
Each iteration copies the element into the loop variable `status` and runs
the body on that variable; nothing is stored into the slice.  Returns the slice
after the loop and, for each iteration, the final value of the loop variable. -/
def pluginStatusLoop (statuses : List (String × String)) :
    List PluginStatus → List PluginStatus × List PluginStatus
  | [] => ([], [])
  | element :: rest =>
    let status := element
    (element :: (pluginStatusLoop statuses rest).1,
      pluginStatusLoopBody statuses status :: (pluginStatusLoop statuses rest).2)

/-- The cluster object when the loop at lines 61-67 is over (a `nil` slice is
ranged over zero times and stays `nil`). -/
def afterPluginStatusLoop (statuses : List (String × String)) (cluster : Cluster) : Cluster :=
  { cluster with
    Status :=
      { cluster.Status with
        PluginStatus :=
          match cluster.Status.PluginStatus with
          | none => none
          | some entries => some (pluginStatusLoop statuses entries).1 } }

/-- What `setStatusPluginHook` leaves behind: the cluster object, the plugin
and store calls made, and the returned pair or the panic raised. -/
structure StatusHookRun where
  cluster : Cluster
  pluginCalls : List PluginCall
  calls : List StoreCall
  result : Except Panic (Result × Option Error)

/-- `setStatusPluginHook`.  `hist` is the trace of store calls made before.  A
successful patch stores the reply of the store into `cluster`. -/
def setStatusPluginHook (ctx : Context) (cli : Client) (hist : List StoreCall)
    (cluster : Cluster) : StatusHookRun :=
  let origCluster := cluster.DeepCopy
  match getPluginClientFromContext ctx with
  | Except.error p =>
    { cluster := cluster, pluginCalls := [], calls := [], result := Except.error p }
  | Except.ok pluginClient =>
    match pluginClient.SetClusterStatus cluster with
    | (_, some err) =>
      { cluster := cluster
        pluginCalls := [PluginCall.SetClusterStatus cluster]
        calls := []
        result := Except.ok ({ Requeue := false, RequeueAfter := 0 }, some err) }
    | (statuses, none) =>
      if statuses.length = 0 then
        { cluster := cluster
          pluginCalls := [PluginCall.SetClusterStatus cluster]
          calls := []
          result := Except.ok ({ Requeue := false, RequeueAfter := 0 }, none) }
      else
        match cli.StatusPatch hist (afterPluginStatusLoop statuses cluster) origCluster with
        | Except.error err =>
          { cluster := afterPluginStatusLoop statuses cluster
            pluginCalls := [PluginCall.SetClusterStatus cluster]
            calls :=
              [StoreCall.statusPatch (afterPluginStatusLoop statuses cluster) origCluster]
            result := Except.ok ({ Requeue := false, RequeueAfter := 5 * Second }, some err) }
        | Except.ok reply =>
          { cluster := reply
            pluginCalls := [PluginCall.SetClusterStatus cluster]
            calls :=
              [StoreCall.statusPatch (afterPluginStatusLoop statuses cluster) origCluster]
            result := Except.ok ({ Requeue := false, RequeueAfter := 5 * Second }, none) }

/-- The merge of plugin statuses as the specification words it (4.4 step 5):
"for each existing PluginStatusEntry whose Name is a key in the mapping,
overwrite its Status value in place; entries not named in the mapping are left
untouched; mapping keys with no matching entry are ignored". -/
def mergePluginStatusSpec (statuses : List (String × String))
    (entries : List PluginStatus) : List PluginStatus :=
  entries.map fun entry =>
    match statuses.lookup entry.Name with
    | some val => { entry with Status := val }
    | none => entry

/-! ## Predicates and runs used by the statements -/

/-- The types of the conditions of a (possibly `nil`) condition list, in order. -/
def condTypes (conditions : Option (List Condition)) : List String :=
  match conditions with
  | none => []
  | some l => l.map Condition.Type_

/-- Whether the condition list already holds the given condition: its first
condition of that type has the same status, reason, message and observed
generation. -/
def holdsCondition (conditions : Option (List Condition)) (c : Condition) : Bool :=
  match conditions with
  | none => false
  | some l =>
    match FindStatusCondition l c.Type_ with
    | none => false
    | some e =>
      decide (e.Status = c.Status ∧ e.Reason = c.Reason ∧ e.Message = c.Message ∧
        e.ObservedGeneration = c.ObservedGeneration)

/-- The cluster's status holds the phase, the reason and the readiness
condition derived from the phase. -/
def holdsPhase (v : Vocabulary) (phase reason : String) (c : Cluster) : Bool :=
  decide (c.Status.Phase = phase) && decide (c.Status.PhaseReason = reason) &&
    holdsCondition c.Status.Conditions (readinessCondition v phase)

/-- The condition list is set, holds at most one condition per type and
exactly one condition of the readiness type. -/
def goodConditions (v : Vocabulary) (c : Cluster) : Prop :=
  (condTypes c.Status.Conditions).Nodup ∧ c.Status.Conditions ≠ none ∧
    (condTypes c.Status.Conditions).count v.ConditionClusterReady = 1

/-- One call of the status synchroniser on the cluster of a reconcile pass. -/
inductive SyncCall where
  | RegisterPhase (now : Time) (phase reason : String)
  | RegisterPhaseWithOrigCluster (now : Time) (origCluster : Ptr) (phase reason : String)

/-- A sequence of synchroniser calls on the cluster object at `cluster`,
threading the trace of store calls and the heap. -/
def runSyncCalls (v : Vocabulary) (cli : Client) (cluster : Ptr) :
    List SyncCall → List StoreCall × Heap → List StoreCall × Heap
  | [], s => s
  | SyncCall.RegisterPhase now phase reason :: rest, s =>
    runSyncCalls v cli cluster rest
      (s.1 ++ (RegisterPhase v cli s.1 now (s.2 cluster) phase reason).calls,
        s.2.write cluster (RegisterPhase v cli s.1 now (s.2 cluster) phase reason).cluster)
  | SyncCall.RegisterPhaseWithOrigCluster now origCluster phase reason :: rest, s =>
    runSyncCalls v cli cluster rest
      (s.1 ++ (RegisterPhaseWithOrigCluster v cli s.1 now s.2 cluster origCluster phase
          reason).calls,
        (RegisterPhaseWithOrigCluster v cli s.1 now s.2 cluster origCluster phase
          reason).heap)

/-- The reply of a store that holds `stored` to a status merge patch of `obj`
against `base`: every status field on which `obj` and `base` differ takes the
value of `obj`, everything else is what the store holds. -/
def mergePatchReply (stored obj base : Cluster) : Cluster :=
  { stored with
    Status :=
      { Phase :=
          if obj.Status.Phase = base.Status.Phase then stored.Status.Phase
          else obj.Status.Phase
        PhaseReason :=
          if obj.Status.PhaseReason = base.Status.PhaseReason then stored.Status.PhaseReason
          else obj.Status.PhaseReason
        Conditions :=
          if obj.Status.Conditions = base.Status.Conditions then stored.Status.Conditions
          else obj.Status.Conditions
        PluginStatus :=
          if obj.Status.PluginStatus = base.Status.PluginStatus then
            stored.Status.PluginStatus
          else obj.Status.PluginStatus
        Other :=
          if obj.Status.Other = base.Status.Other then stored.Status.Other
          else obj.Status.Other } }

/-- The cluster has the phase and the reason, its condition list is set, and
its condition of the readiness type (the one `meta.FindStatusCondition`
returns) has status True, reason `ClusterReady` and message "Cluster is Ready"
when the phase is `PhaseHealthy`, and status False, reason `ClusterIsNotReady`
and message "Cluster Is Not Ready" for every other phase. -/
def phaseRegistered (v : Vocabulary) (phase reason : String) (c : Cluster) : Prop :=
  c.Status.Phase = phase ∧ c.Status.PhaseReason = reason ∧
  ∃ conds e,
    c.Status.Conditions = some conds ∧
    FindStatusCondition conds v.ConditionClusterReady = some e ∧
    e.Type_ = v.ConditionClusterReady ∧
    e.Status = (if phase = v.PhaseHealthy then ConditionTrue else ConditionFalse) ∧
    e.Reason = (if phase = v.PhaseHealthy then v.ClusterReady else v.ClusterIsNotReady) ∧
    e.Message =
      (if phase = v.PhaseHealthy then "Cluster is Ready" else "Cluster Is Not Ready")

/-! ## Concrete inputs -/

/-- Sample values for the `api/v1` constants. -/
def sampleVocabulary : Vocabulary :=
  { PhaseHealthy := "Healthy"
    ConditionClusterReady := "Ready"
    ClusterReady := "ClusterReady"
    ClusterIsNotReady := "ClusterIsNotReady" }

/-- The cluster of the end-to-end scenario: phase "Unknown", no condition, one
plugin entry "barman" with an empty status. -/
def sampleCluster : Cluster :=
  { Namespace := "default"
    Name := "pg"
    Rest := []
    Status :=
      { Phase := "Unknown"
        PhaseReason := ""
        Conditions := some []
        PluginStatus := some [{ Name := "barman", Status := "" }]
        Other := [] } }

/-- A store that accepts every call and replies with the object it was sent. -/
def okClient : Client :=
  { StatusPatch := fun _ obj _ => Except.ok obj
    Get := fun _ _ _ => none }

/-- A store whose patches succeed and whose reads fail. -/
def failingGetClient : Client :=
  { StatusPatch := fun _ obj _ => Except.ok obj
    Get := fun _ _ _ => some ⟨"not found"⟩ }

/-- A store whose patches fail with a conflict. -/
def conflictClient : Client :=
  { StatusPatch := fun _ _ _ => Except.error ⟨"conflict"⟩
    Get := fun _ _ _ => none }

/-- A store that holds `stored` and answers a status patch with the merge of
the patch into what it holds. -/
def mergePatchClient (stored : Cluster) : Client :=
  { StatusPatch := fun _ obj base => Except.ok (mergePatchReply stored obj base)
    Get := fun _ _ _ => none }

/-- A store that replies with the object it was sent, stamped with a new
resource version. -/
def versioningClient : Client :=
  { StatusPatch := fun _ obj _ =>
      Except.ok { obj with Rest := [("metadata.resourceVersion", "42")] }
    Get := fun _ _ _ => none }

/-- A plugin client whose hooks let reconciliation continue and whose status
query answers the given mapping. -/
def mappingClient (statuses : List (String × String)) : PluginClient :=
  { PreReconcile := fun _ _ => { StopReconciliation := false, Err := none }
    PostReconcile := fun _ _ => { StopReconciliation := false, Err := none }
    SetClusterStatus := fun _ => (statuses, none) }

/-- A cluster with the plugin entries "A" (empty status) and "B" (status "b"). -/
def clusterAB : Cluster :=
  { sampleCluster with
    Status :=
      { sampleCluster.Status with
        PluginStatus := some [{ Name := "A", Status := "" }, { Name := "B", Status := "b" }] } }

/-- The sample cluster once registered as "Healthy" at clock reading 7. -/
def healthyCluster : Cluster :=
  applyPhase sampleVocabulary 7 sampleCluster "Healthy" "AllPodsReady"

/-- The sample cluster once registered as "Failing" at clock reading 5. -/
def failingCluster : Cluster :=
  applyPhase sampleVocabulary 5 sampleCluster "Failing" "PodDown"

/-! ## Lemmas on `meta.SetStatusCondition` -/

theorem overwriteCondition_fields (now : Time) (e n : Condition) :
    (overwriteCondition now e n).1.Type_ = e.Type_ ∧
    (overwriteCondition now e n).1.Status = n.Status ∧
    (overwriteCondition now e n).1.Reason = n.Reason ∧
    (overwriteCondition now e n).1.Message = n.Message ∧
    (overwriteCondition now e n).1.ObservedGeneration = n.ObservedGeneration := by
  unfold overwriteCondition
  by_cases h1 : e.Status = n.Status <;> by_cases h2 : e.Reason = n.Reason <;>
    by_cases h3 : e.Message = n.Message <;>
    by_cases h4 : e.ObservedGeneration = n.ObservedGeneration <;>
    simp [h1, h2, h3, h4]

theorem overwriteCondition_same (now : Time) (e n : Condition)
    (hs : e.Status = n.Status) (hr : e.Reason = n.Reason) (hm : e.Message = n.Message)
    (hg : e.ObservedGeneration = n.ObservedGeneration) :
    overwriteCondition now e n = (e, false) := by
  unfold overwriteCondition
  simp [hs, hr, hm, hg]

theorem overwriteCondition_idem (now now2 : Time) (e n : Condition) :
    overwriteCondition now2 (overwriteCondition now e n).1 n =
      ((overwriteCondition now e n).1, false) := by
  obtain ⟨_, hs, hr, hm, hg⟩ := overwriteCondition_fields now e n
  exact overwriteCondition_same now2 _ n hs hr hm hg

theorem stampCondition_fields (now : Time) (n : Condition) :
    (stampCondition now n).Type_ = n.Type_ ∧
    (stampCondition now n).Status = n.Status ∧
    (stampCondition now n).Reason = n.Reason ∧
    (stampCondition now n).Message = n.Message ∧
    (stampCondition now n).ObservedGeneration = n.ObservedGeneration := by
  unfold stampCondition
  split <;> simp

/-- The types held by the list after `SetStatusCondition`: unchanged when the
type is present, extended by the new type otherwise. -/
theorem SetStatusCondition_types (now : Time) (n : Condition) (l : List Condition) :
    (SetStatusCondition now n l).1.map Condition.Type_ =
      if n.Type_ ∈ l.map Condition.Type_ then l.map Condition.Type_
      else l.map Condition.Type_ ++ [n.Type_] := by
  induction l with
  | nil => simp [SetStatusCondition, (stampCondition_fields now n).1]
  | cons c cs ih =>
    by_cases h : c.Type_ = n.Type_
    · simp [SetStatusCondition, h, (overwriteCondition_fields now c n).1]
    · have h2 : ¬ n.Type_ = c.Type_ := fun e => h e.symm
      simp only [SetStatusCondition, h, if_false, List.map_cons, ih, List.mem_cons, h2,
        false_or]
      split <;> simp

/-- After `SetStatusCondition` the first condition of the new type carries the
new status, reason, message and observed generation. -/
theorem FindStatusCondition_SetStatusCondition (now : Time) (n : Condition)
    (l : List Condition) :
    ∃ e, FindStatusCondition (SetStatusCondition now n l).1 n.Type_ = some e ∧
      e.Type_ = n.Type_ ∧ e.Status = n.Status ∧ e.Reason = n.Reason ∧
      e.Message = n.Message ∧ e.ObservedGeneration = n.ObservedGeneration := by
  induction l with
  | nil =>
    refine ⟨stampCondition now n, ?_, stampCondition_fields now n⟩
    simp [SetStatusCondition, FindStatusCondition, (stampCondition_fields now n).1]
  | cons c cs ih =>
    by_cases h : c.Type_ = n.Type_
    · refine ⟨(overwriteCondition now c n).1, ?_, ?_⟩
      · simp [SetStatusCondition, FindStatusCondition, h,
          (overwriteCondition_fields now c n).1]
      · have := overwriteCondition_fields now c n
        exact ⟨this.1.trans h, this.2⟩
    · obtain ⟨e, he, hf⟩ := ih
      refine ⟨e, ?_, hf⟩
      simpa [SetStatusCondition, FindStatusCondition, h] using he

/-- Setting the same condition again changes nothing, whatever the clock says. -/
theorem SetStatusCondition_idem (now now2 : Time) (n : Condition) (l : List Condition) :
    SetStatusCondition now2 n (SetStatusCondition now n l).1 =
      ((SetStatusCondition now n l).1, false) := by
  induction l with
  | nil =>
    have hf := stampCondition_fields now n
    simp only [SetStatusCondition, hf.1, if_true]
    rw [overwriteCondition_same now2 _ n hf.2.1 hf.2.2.1 hf.2.2.2.1 hf.2.2.2.2]
  | cons c cs ih =>
    by_cases h : c.Type_ = n.Type_
    · have hf := overwriteCondition_fields now c n
      simp only [SetStatusCondition, h, if_true, hf.1]
      rw [overwriteCondition_idem]
    · simp only [SetStatusCondition, h, if_false, ih]

/-- A list fixed by `SetStatusCondition` already holds the condition. -/
theorem holds_of_SetStatusCondition_fixed (now : Time) (n : Condition) (l : List Condition)
    (h : (SetStatusCondition now n l).1 = l) : holdsCondition (some l) n = true := by
  induction l with
  | nil => simp [SetStatusCondition] at h
  | cons c cs ih =>
    by_cases hc : c.Type_ = n.Type_
    · simp only [SetStatusCondition, hc, if_true, List.cons.injEq, and_true] at h
      have hf := overwriteCondition_fields now c n
      rw [h] at hf
      simp [holdsCondition, FindStatusCondition, hc, hf.2]
    · simp only [SetStatusCondition, hc, if_false, List.cons.injEq, true_and] at h
      have := ih h
      simpa [holdsCondition, FindStatusCondition, hc] using this

/-- A list that holds the condition is fixed by `SetStatusCondition`. -/
theorem SetStatusCondition_fixed_of_holds (now : Time) (n : Condition) (l : List Condition)
    (h : holdsCondition (some l) n = true) : (SetStatusCondition now n l).1 = l := by
  induction l with
  | nil => simp [holdsCondition, FindStatusCondition] at h
  | cons c cs ih =>
    by_cases hc : c.Type_ = n.Type_
    · simp only [holdsCondition, FindStatusCondition, List.find?_cons, hc, decide_True,
        decide_eq_true_eq] at h
      simp only [SetStatusCondition, hc, if_true]
      rw [overwriteCondition_same now c n h.1 h.2.1 h.2.2.1 h.2.2.2]
    · have h2 : holdsCondition (some cs) n = true := by
        simpa [holdsCondition, FindStatusCondition, hc] using h
      simp only [SetStatusCondition, hc, if_false, ih h2]

/-! ## Lemmas on the status synchroniser -/

theorem Heap.write_self (heap : Heap) (p : Ptr) (c : Cluster) : heap.write p c p = c := by
  simp [Heap.write]

theorem Heap.write_other (heap : Heap) (p q : Ptr) (c : Cluster) (h : q ≠ p) :
    heap.write p c q = heap q := by
  simp [Heap.write, h]

theorem phaseHeap_self (v : Vocabulary) (now : Time) (heap : Heap) (pm : Ptr)
    (phase reason : String) :
    phaseHeap v now heap pm phase reason pm = applyPhase v now (heap pm) phase reason := by
  simp [phaseHeap, Heap.write]

theorem phaseHeap_other (v : Vocabulary) (now : Time) (heap : Heap) (pm p : Ptr)
    (phase reason : String) (h : p ≠ pm) :
    phaseHeap v now heap pm phase reason p = heap p := by
  simp [phaseHeap, Heap.write, h]

/-- The three ways a call of `RegisterPhaseWithOrigCluster` ends: no patch, a
failed patch, or a successful patch whose reply is stored into the cluster. -/
theorem RegisterPhaseWithOrigCluster_cases (v : Vocabulary) (cli : Client)
    (hist : List StoreCall) (now : Time) (heap : Heap) (pm po : Ptr)
    (phase reason : String) :
    (phaseHeap v now heap pm phase reason po = phaseHeap v now heap pm phase reason pm ∧
      (RegisterPhaseWithOrigCluster v cli hist now heap pm po phase reason).heap =
        phaseHeap v now heap pm phase reason ∧
      (RegisterPhaseWithOrigCluster v cli hist now heap pm po phase reason).calls = [] ∧
      (RegisterPhaseWithOrigCluster v cli hist now heap pm po phase reason).err = none) ∨
    (phaseHeap v now heap pm phase reason po ≠ phaseHeap v now heap pm phase reason pm ∧
      ∃ e, cli.StatusPatch hist (phaseHeap v now heap pm phase reason pm)
          (phaseHeap v now heap pm phase reason po) = Except.error e ∧
        (RegisterPhaseWithOrigCluster v cli hist now heap pm po phase reason).heap =
          phaseHeap v now heap pm phase reason ∧
        (RegisterPhaseWithOrigCluster v cli hist now heap pm po phase reason).calls =
          [StoreCall.statusPatch (phaseHeap v now heap pm phase reason pm)
            (phaseHeap v now heap pm phase reason po)] ∧
        (RegisterPhaseWithOrigCluster v cli hist now heap pm po phase reason).err = some e) ∨
    (phaseHeap v now heap pm phase reason po ≠ phaseHeap v now heap pm phase reason pm ∧
      ∃ reply, cli.StatusPatch hist (phaseHeap v now heap pm phase reason pm)
          (phaseHeap v now heap pm phase reason po) = Except.ok reply ∧
        (RegisterPhaseWithOrigCluster v cli hist now heap pm po phase reason).heap =
          (phaseHeap v now heap pm phase reason).write pm reply ∧
        (RegisterPhaseWithOrigCluster v cli hist now heap pm po phase reason).calls =
          [StoreCall.statusPatch (phaseHeap v now heap pm phase reason pm)
            (phaseHeap v now heap pm phase reason po),
            StoreCall.get reply.Namespace reply.Name] ∧
        (RegisterPhaseWithOrigCluster v cli hist now heap pm po phase reason).err = none) := by
  unfold RegisterPhaseWithOrigCluster
  by_cases h : phaseHeap v now heap pm phase reason po = phaseHeap v now heap pm phase reason pm
  · left
    simp [h]
  · right
    simp only [h, ne_eq, not_false_eq_true, if_true, true_and]
    cases hp : cli.StatusPatch hist (phaseHeap v now heap pm phase reason pm)
        (phaseHeap v now heap pm phase reason po) with
    | error e => left; exact ⟨e, rfl, rfl, rfl, rfl⟩
    | ok reply =>
      right
      refine ⟨reply, rfl, ?_⟩
      simp only
      split <;> exact ⟨rfl, rfl, rfl⟩

/-- The three ways a call of `RegisterPhase` ends. -/
theorem RegisterPhase_cases (v : Vocabulary) (cli : Client) (hist : List StoreCall)
    (now : Time) (cluster : Cluster) (phase reason : String) :
    (cluster = applyPhase v now cluster phase reason ∧
      (RegisterPhase v cli hist now cluster phase reason).cluster = cluster ∧
      (RegisterPhase v cli hist now cluster phase reason).calls = [] ∧
      (RegisterPhase v cli hist now cluster phase reason).err = none) ∨
    (cluster ≠ applyPhase v now cluster phase reason ∧
      ∃ e, cli.StatusPatch hist (applyPhase v now cluster phase reason) cluster =
          Except.error e ∧
        (RegisterPhase v cli hist now cluster phase reason).cluster =
          applyPhase v now cluster phase reason ∧
        (RegisterPhase v cli hist now cluster phase reason).calls =
          [StoreCall.statusPatch (applyPhase v now cluster phase reason) cluster] ∧
        (RegisterPhase v cli hist now cluster phase reason).err = some e) ∨
    (cluster ≠ applyPhase v now cluster phase reason ∧
      ∃ reply, cli.StatusPatch hist (applyPhase v now cluster phase reason) cluster =
          Except.ok reply ∧
        (RegisterPhase v cli hist now cluster phase reason).cluster = reply ∧
        (RegisterPhase v cli hist now cluster phase reason).calls =
          [StoreCall.statusPatch (applyPhase v now cluster phase reason) cluster,
            StoreCall.get reply.Namespace reply.Name] ∧
        (RegisterPhase v cli hist now cluster phase reason).err = none) := by
  have h0 : phaseHeap v now (twoObjects cluster cluster.DeepCopy) 0 phase reason 0 =
      applyPhase v now cluster phase reason := by
    rw [phaseHeap_self]; rfl
  have h1 : phaseHeap v now (twoObjects cluster cluster.DeepCopy) 0 phase reason 1 =
      cluster := by
    rw [phaseHeap_other _ _ _ _ _ _ _ (by decide)]; rfl
  have hc := RegisterPhaseWithOrigCluster_cases v cli hist now
    (twoObjects cluster cluster.DeepCopy) 0 1 phase reason
  rw [h0, h1] at hc
  unfold RegisterPhase
  rcases hc with ⟨he, hh, hcalls, herr⟩ | ⟨hne, e, hp, hh, hcalls, herr⟩ |
    ⟨hne, reply, hp, hh, hcalls, herr⟩
  · left
    refine ⟨he, ?_, hcalls, herr⟩
    simp only [hh, h0]
    exact he.symm
  · right; left
    refine ⟨hne, e, hp, ?_, hcalls, herr⟩
    simp only [hh, h0]
  · right; right
    refine ⟨hne, reply, hp, ?_, hcalls, herr⟩
    simp only [hh, Heap.write_self]

theorem holdsPhase_iff (v : Vocabulary) (phase reason : String) (c : Cluster) :
    holdsPhase v phase reason c = true ↔
      (c.Status.Phase = phase ∧ c.Status.PhaseReason = reason ∧
        holdsCondition c.Status.Conditions (readinessCondition v phase) = true) := by
  simp [holdsPhase, and_assoc]

/-- Applying the same phase and reason a second time changes nothing. -/
theorem applyPhase_idem (v : Vocabulary) (now now2 : Time) (m : Cluster)
    (phase reason : String) :
    applyPhase v now2 (applyPhase v now m phase reason) phase reason =
      applyPhase v now m phase reason := by
  simp only [applyPhase, SetStatusCondition_idem]

/-- A cluster fixed by `applyPhase` already holds phase, reason and condition. -/
theorem holds_of_applyPhase_fixed (v : Vocabulary) (now : Time) (m : Cluster)
    (phase reason : String) (h : applyPhase v now m phase reason = m) :
    m.Status.Phase = phase ∧ m.Status.PhaseReason = reason ∧
      holdsCondition m.Status.Conditions (readinessCondition v phase) = true := by
  have h1 : (applyPhase v now m phase reason).Status.Phase = m.Status.Phase := by rw [h]
  have h2 : (applyPhase v now m phase reason).Status.PhaseReason = m.Status.PhaseReason := by
    rw [h]
  have h3 : (applyPhase v now m phase reason).Status.Conditions = m.Status.Conditions := by
    rw [h]
  refine ⟨h1.symm, h2.symm, ?_⟩
  cases hc : m.Status.Conditions with
  | none => simp [applyPhase, hc] at h3
  | some l =>
    simp only [applyPhase, hc, Option.some.injEq] at h3
    exact holds_of_SetStatusCondition_fixed now _ l h3

/-- The condition types after `applyPhase`: those held before, with the
readiness type added at the end when it was missing. -/
theorem applyPhase_condTypes (v : Vocabulary) (now : Time) (m : Cluster)
    (phase reason : String) :
    condTypes (applyPhase v now m phase reason).Status.Conditions =
      if v.ConditionClusterReady ∈ condTypes m.Status.Conditions then
        condTypes m.Status.Conditions
      else condTypes m.Status.Conditions ++ [v.ConditionClusterReady] := by
  have hty : (readinessCondition v phase).Type_ = v.ConditionClusterReady := by
    unfold readinessCondition; split <;> rfl
  cases hm : m.Status.Conditions with
  | none => simp [applyPhase, condTypes, hm, SetStatusCondition_types, hty]
  | some l => simp [applyPhase, condTypes, hm, SetStatusCondition_types, hty]

theorem applyPhase_conditions_ne_none (v : Vocabulary) (now : Time) (m : Cluster)
    (phase reason : String) :
    (applyPhase v now m phase reason).Status.Conditions ≠ none := by
  simp [applyPhase]

theorem applyPhase_nodup (v : Vocabulary) (now : Time) (m : Cluster)
    (phase reason : String) (h : (condTypes m.Status.Conditions).Nodup) :
    (condTypes (applyPhase v now m phase reason).Status.Conditions).Nodup := by
  rw [applyPhase_condTypes]
  split
  · exact h
  · rename_i hnot
    exact List.Nodup.append h (List.nodup_singleton _) (by simpa using hnot)

theorem applyPhase_count (v : Vocabulary) (now : Time) (m : Cluster)
    (phase reason : String) (h : (condTypes m.Status.Conditions).Nodup) :
    (condTypes (applyPhase v now m phase reason).Status.Conditions).count
      v.ConditionClusterReady = 1 := by
  have hnd := applyPhase_nodup v now m phase reason h
  have hmem : v.ConditionClusterReady ∈
      condTypes (applyPhase v now m phase reason).Status.Conditions := by
    rw [applyPhase_condTypes]
    split
    · assumption
    · simp
  exact List.count_eq_one_of_mem hnd hmem


/-- A cluster that holds phase, reason and condition is fixed by `applyPhase`. -/
theorem applyPhase_fixed_of_holds (v : Vocabulary) (now : Time) (m : Cluster)
    (phase reason : String) (h : holdsPhase v phase reason m = true) :
    applyPhase v now m phase reason = m := by
  obtain ⟨h1, h2, h3⟩ := (holdsPhase_iff v phase reason m).1 h
  cases hc : m.Status.Conditions with
  | none => simp [holdsCondition, hc] at h3
  | some l =>
    rw [hc] at h3
    have hfix := SetStatusCondition_fixed_of_holds now _ l h3
    have e : applyPhase v now m phase reason =
        { m with Status := { m.Status with
            Phase := phase, PhaseReason := reason,
            Conditions := some (SetStatusCondition now (readinessCondition v phase) l).1 } } := by
      simp only [applyPhase, hc]
    rw [e, hfix, ← h1, ← h2, ← hc]

/-- The cluster `applyPhase` builds holds phase, reason and condition. -/
theorem applyPhase_holds (v : Vocabulary) (now : Time) (m : Cluster)
    (phase reason : String) :
    holdsPhase v phase reason (applyPhase v now m phase reason) = true := by
  have h := applyPhase_idem v now now m phase reason
  exact (holdsPhase_iff v phase reason _).2
    (holds_of_applyPhase_fixed v now _ phase reason h)

theorem applyPhase_good (v : Vocabulary) (now : Time) (m : Cluster)
    (phase reason : String) (h : (condTypes m.Status.Conditions).Nodup) :
    goodConditions v (applyPhase v now m phase reason) :=
  ⟨applyPhase_nodup v now m phase reason h,
    applyPhase_conditions_ne_none v now m phase reason,
    applyPhase_count v now m phase reason h⟩

theorem applyPhase_eq_of_status_eq (v : Vocabulary) (now : Time) (m : Cluster)
    (phase reason : String)
    (h : (applyPhase v now m phase reason).Status = m.Status) :
    applyPhase v now m phase reason = m := by
  have h2 : applyPhase v now m phase reason =
      { m with Status := (applyPhase v now m phase reason).Status } := rfl
  rw [h2, h]


theorem applyPhase_registered (v : Vocabulary) (now : Time) (m : Cluster)
    (phase reason : String) : phaseRegistered v phase reason (applyPhase v now m phase reason) := by
  refine ⟨rfl, rfl, ?_⟩
  have hty : (readinessCondition v phase).Type_ = v.ConditionClusterReady := by
    unfold readinessCondition; split <;> rfl
  obtain ⟨e, he, h1, h2, h3, h4, _⟩ :=
    FindStatusCondition_SetStatusCondition now (readinessCondition v phase)
      (match m.Status.Conditions with
        | none => []
        | some cs => cs)
  rw [hty] at he h1
  refine ⟨_, e, rfl, he, h1, ?_, ?_, ?_⟩
  · rw [h2]; unfold readinessCondition; split <;> rfl
  · rw [h3]; unfold readinessCondition; split <;> rfl
  · rw [h4]; unfold readinessCondition; split <;> rfl

/-- One call keeps the uniqueness of condition types and ends with good
conditions, when the store's replies are good whenever the patch target is. -/
theorem RegisterPhaseWithOrigCluster_good (v : Vocabulary) (cli : Client)
    (hist : List StoreCall) (now : Time) (heap : Heap) (pm po : Ptr) (phase reason : String)
    (h : (condTypes (heap pm).Status.Conditions).Nodup)
    (hstore : ∀ hist obj base reply, cli.StatusPatch hist obj base = Except.ok reply →
      goodConditions v obj → goodConditions v reply) :
    goodConditions v
      ((RegisterPhaseWithOrigCluster v cli hist now heap pm po phase reason).heap pm) := by
  have hb := applyPhase_good v now (heap pm) phase reason h
  rcases RegisterPhaseWithOrigCluster_cases v cli hist now heap pm po phase reason with
    ⟨_, hh, _, _⟩ | ⟨_, e, _, hh, _, _⟩ | ⟨_, reply, hp, hh, _, _⟩
  · rw [hh, phaseHeap_self]; exact hb
  · rw [hh, phaseHeap_self]; exact hb
  · rw [hh, Heap.write_self]
    rw [phaseHeap_self] at hp
    exact hstore _ _ _ _ hp hb

theorem RegisterPhase_good (v : Vocabulary) (cli : Client)
    (hist : List StoreCall) (now : Time) (cluster : Cluster) (phase reason : String)
    (h : (condTypes cluster.Status.Conditions).Nodup)
    (hstore : ∀ hist obj base reply, cli.StatusPatch hist obj base = Except.ok reply →
      goodConditions v obj → goodConditions v reply) :
    goodConditions v (RegisterPhase v cli hist now cluster phase reason).cluster := by
  have hb := applyPhase_good v now cluster phase reason h
  rcases RegisterPhase_cases v cli hist now cluster phase reason with
    ⟨he, hh, _, _⟩ | ⟨_, e, _, hh, _, _⟩ | ⟨_, reply, hp, hh, _, _⟩
  · rw [hh]; rw [he]; exact hb
  · rw [hh]; exact hb
  · rw [hh]; exact hstore _ _ _ _ hp hb

theorem runSyncCalls_invariant (v : Vocabulary) (cli : Client) (pc : Ptr)
    (hstore : ∀ hist obj base reply, cli.StatusPatch hist obj base = Except.ok reply →
      goodConditions v obj → goodConditions v reply)
    (calls : List SyncCall) :
    ∀ s : List StoreCall × Heap, (condTypes (s.2 pc).Status.Conditions).Nodup →
      (condTypes ((runSyncCalls v cli pc calls s).2 pc).Status.Conditions).Nodup ∧
      (calls ≠ [] → goodConditions v ((runSyncCalls v cli pc calls s).2 pc)) := by
  induction calls with
  | nil => intro s h; exact ⟨h, fun hne => absurd rfl hne⟩
  | cons c rest ih =>
    intro s h
    cases c with
    | RegisterPhase now phase reason =>
      have hg := RegisterPhase_good v cli s.1 now (s.2 pc) phase reason h hstore
      have hg2 : goodConditions v
          ((s.2.write pc (RegisterPhase v cli s.1 now (s.2 pc) phase reason).cluster) pc) := by
        rw [Heap.write_self]; exact hg
      have hstep := ih (s.1 ++ (RegisterPhase v cli s.1 now (s.2 pc) phase reason).calls,
        s.2.write pc (RegisterPhase v cli s.1 now (s.2 pc) phase reason).cluster) hg2.1
      refine ⟨hstep.1, fun _ => ?_⟩
      by_cases hr : rest = []
      · subst hr
        simp only [runSyncCalls]
        exact hg2
      · exact hstep.2 hr
    | RegisterPhaseWithOrigCluster now orig phase reason =>
      have hg := RegisterPhaseWithOrigCluster_good v cli s.1 now s.2 pc orig phase reason h
        hstore
      have hstep := ih
        (s.1 ++ (RegisterPhaseWithOrigCluster v cli s.1 now s.2 pc orig phase reason).calls,
          (RegisterPhaseWithOrigCluster v cli s.1 now s.2 pc orig phase reason).heap) hg.1
      refine ⟨hstep.1, fun _ => ?_⟩
      by_cases hr : rest = []
      · subst hr
        simp only [runSyncCalls]
        exact hg
      · exact hstep.2 hr

/-- After a successful patch the cluster in memory is the reply of the store. -/
theorem RegisterPhaseWithOrigCluster_reply_stored (v : Vocabulary)
    (cli : Client) (hist : List StoreCall) (now : Time) (heap : Heap) (pm po : Ptr)
    (phase reason : String) :
    ∀ obj base reply,
      StoreCall.statusPatch obj base ∈
        (RegisterPhaseWithOrigCluster v cli hist now heap pm po phase reason).calls →
      cli.StatusPatch hist obj base = Except.ok reply →
      (RegisterPhaseWithOrigCluster v cli hist now heap pm po phase reason).heap pm = reply := by
  intro obj base r hm hr
  rcases RegisterPhaseWithOrigCluster_cases v cli hist now heap pm po phase reason with
    ⟨_, hh, hc, he⟩ | ⟨_, e, hp, hh, hc, he⟩ | ⟨_, reply, hp, hh, hc, he⟩
  · rw [hc] at hm; simp at hm
  · rw [hc] at hm
    simp only [List.mem_singleton, StoreCall.statusPatch.injEq] at hm
    rw [hm.1, hm.2, hp] at hr
    cases hr
  · rw [hc] at hm
    simp only [List.mem_cons, StoreCall.statusPatch.injEq, List.mem_singleton,
      reduceCtorEq, or_false, List.not_mem_nil] at hm
    rw [hm.1, hm.2, hp] at hr
    rw [hh, Heap.write_self]
    exact Except.ok.inj hr

/-! ## The status synchroniser: claims -/

/-- C5, what the code does.  The cluster `RegisterPhaseWithOrigCluster` sends
as patch target has `Status.Phase = phase`, `Status.PhaseReason = reason`, and
a condition of type `ConditionClusterReady` with status True, reason
`ClusterReady` and message "Cluster is Ready" when `phase` is the `PhaseHealthy`
constant, and status False, reason `ClusterIsNotReady` and message "Cluster Is
Not Ready" for every other phase.  This is also the cluster left in memory when
no patch is issued or the patch fails.  After a successful patch the cluster in
memory is the reply of the store. -/
theorem RegisterPhaseWithOrigCluster_sets_phase_and_condition (v : Vocabulary)
    (cli : Client) (hist : List StoreCall) (now : Time) (heap : Heap)
    (modifiedCluster origCluster : Ptr) (phase reason : String) :
    (∀ obj base,
      StoreCall.statusPatch obj base ∈
        (RegisterPhaseWithOrigCluster v cli hist now heap modifiedCluster origCluster phase
          reason).calls →
      phaseRegistered v phase reason obj) ∧
    (((RegisterPhaseWithOrigCluster v cli hist now heap modifiedCluster origCluster phase
          reason).calls = [] ∨
        (RegisterPhaseWithOrigCluster v cli hist now heap modifiedCluster origCluster phase
          reason).err ≠ none) →
      phaseRegistered v phase reason
        ((RegisterPhaseWithOrigCluster v cli hist now heap modifiedCluster origCluster phase
          reason).heap modifiedCluster)) ∧
    (∀ obj base reply,
      StoreCall.statusPatch obj base ∈
        (RegisterPhaseWithOrigCluster v cli hist now heap modifiedCluster origCluster phase
          reason).calls →
      cli.StatusPatch hist obj base = Except.ok reply →
      (RegisterPhaseWithOrigCluster v cli hist now heap modifiedCluster origCluster phase
        reason).heap modifiedCluster = reply) := by
  have hb := applyPhase_registered v now (heap modifiedCluster) phase reason
  rcases RegisterPhaseWithOrigCluster_cases v cli hist now heap modifiedCluster origCluster
      phase reason with
    ⟨_, hh, hc, he⟩ | ⟨_, e, hp, hh, hc, he⟩ | ⟨_, reply, hp, hh, hc, he⟩
  · refine ⟨?_, ?_, ?_⟩
    · intro obj base hm; rw [hc] at hm; simp at hm
    · intro _; rw [hh, phaseHeap_self]; exact hb
    · intro obj base r hm; rw [hc] at hm; simp at hm
  · refine ⟨?_, ?_, ?_⟩
    · intro obj base hm
      rw [hc] at hm
      simp only [List.mem_singleton, StoreCall.statusPatch.injEq] at hm
      rw [hm.1, phaseHeap_self]; exact hb
    · intro _; rw [hh, phaseHeap_self]; exact hb
    · intro obj base r hm hr
      rw [hc] at hm
      simp only [List.mem_singleton, StoreCall.statusPatch.injEq] at hm
      rw [hm.1, hm.2, hp] at hr
      cases hr
  · refine ⟨?_, ?_, ?_⟩
    · intro obj base hm
      rw [hc] at hm
      simp only [List.mem_cons, StoreCall.statusPatch.injEq, List.mem_singleton,
        reduceCtorEq, or_false, List.not_mem_nil] at hm
      rw [hm.1, phaseHeap_self]; exact hb
    · intro hor
      rcases hor with h1 | h1
      · rw [hc] at h1; simp at h1
      · exact absurd he h1
    · intro obj base r hm hr
      rw [hc] at hm
      simp only [List.mem_cons, StoreCall.statusPatch.injEq, List.mem_singleton,
        reduceCtorEq, or_false, List.not_mem_nil] at hm
      rw [hm.1, hm.2, hp] at hr
      rw [hh, Heap.write_self]
      exact Except.ok.inj hr

/-- C5 as stated fails.  The cluster in memory and the store both hold the
phase "Failing"; the snapshot is older and still has the phase "Healthy".
Registering "Healthy" sends a patch that leaves the phase out, the store replies
with its phase, and the call returns a nil error with the cluster in memory at
phase "Failing". -/
theorem RegisterPhaseWithOrigCluster_stale_snapshot_keeps_phase :
    ((RegisterPhaseWithOrigCluster sampleVocabulary (mergePatchClient failingCluster) [] 9
      (twoObjects failingCluster healthyCluster) 0 1 "Healthy"
      "AllPodsReady").heap 0).Status.Phase = "Failing" ∧
    (RegisterPhaseWithOrigCluster sampleVocabulary (mergePatchClient failingCluster) [] 9
      (twoObjects failingCluster healthyCluster) 0 1 "Healthy" "AllPodsReady").err = none ∧
    patchCount (RegisterPhaseWithOrigCluster sampleVocabulary
      (mergePatchClient failingCluster) [] 9
      (twoObjects failingCluster healthyCluster) 0 1 "Healthy" "AllPodsReady").calls = 1 := by
  decide

/-- C6, what the code does.  From a cluster whose condition list (possibly
`nil`) holds at most one condition per type, and with a store whose reply to a
successful patch has a set condition list with at most one condition per type
and exactly one of type `ConditionClusterReady` whenever the patch target has,
any sequence of `RegisterPhase` / `RegisterPhaseWithOrigCluster` calls ends with
at most one condition per type; and once at least one call was made the list is
not `nil` and holds exactly one condition of type `ConditionClusterReady`. -/
theorem condition_uniqueness_invariant (v : Vocabulary) (cli : Client) (cluster : Ptr)
    (calls : List SyncCall) (hist : List StoreCall) (heap : Heap)
    (h : (condTypes (heap cluster).Status.Conditions).Nodup)
    (hstore : ∀ hist obj base reply, cli.StatusPatch hist obj base = Except.ok reply →
      goodConditions v obj → goodConditions v reply) :
    (condTypes
      ((runSyncCalls v cli cluster calls (hist, heap)).2 cluster).Status.Conditions).Nodup ∧
    (calls ≠ [] →
      ((runSyncCalls v cli cluster calls (hist, heap)).2 cluster).Status.Conditions ≠ none ∧
      (condTypes
        ((runSyncCalls v cli cluster calls (hist, heap)).2 cluster).Status.Conditions).count
        v.ConditionClusterReady = 1) := by
  have hinv := runSyncCalls_invariant v cli cluster hstore calls (hist, heap) h
  exact ⟨hinv.1, fun hne => (hinv.2 hne).2⟩

/-- C6 at a concrete run: two calls on a cluster whose condition list is `nil`,
with a store that replies with the object it was sent. -/
theorem condition_uniqueness_invariant_witness :
    (condTypes ((twoObjects
      { sampleCluster with Status := { sampleCluster.Status with Conditions := none } }
      sampleCluster) 0).Status.Conditions).Nodup ∧
    (condTypes ((runSyncCalls sampleVocabulary okClient 0
      [SyncCall.RegisterPhase 7 "Healthy" "AllPodsReady",
        SyncCall.RegisterPhaseWithOrigCluster 9 1 "Failing" "PodDown"]
      ([], twoObjects
        { sampleCluster with Status := { sampleCluster.Status with Conditions := none } }
        sampleCluster)).2 0).Status.Conditions).count
        sampleVocabulary.ConditionClusterReady = 1 :=
  ⟨List.nodup_nil,
    ((condition_uniqueness_invariant sampleVocabulary okClient 0
      [SyncCall.RegisterPhase 7 "Healthy" "AllPodsReady",
        SyncCall.RegisterPhaseWithOrigCluster 9 1 "Failing" "PodDown"] []
      (twoObjects
        { sampleCluster with Status := { sampleCluster.Status with Conditions := none } }
        sampleCluster)
      List.nodup_nil
      (fun _ obj _ reply hr hg => by
        have e : obj = reply := Except.ok.inj hr
        rw [← e]; exact hg)).2 (by simp)).2⟩

/-- C6 as stated fails.  The cluster in memory already holds the readiness
condition of "Healthy" but not the phase, so the patch carries the phase and
leaves the conditions out, and the reply brings the store's condition list into
memory: `nil` when the store holds none, two conditions of one type when the
store holds two. -/
theorem condition_list_taken_from_reply :
    (condTypes ({ healthyCluster with
        Status := { healthyCluster.Status with Phase := "Unknown" } }
        : Cluster).Status.Conditions).Nodup ∧
    ((runSyncCalls sampleVocabulary
      (mergePatchClient
        { sampleCluster with Status := { sampleCluster.Status with Conditions := none } }) 0
      [SyncCall.RegisterPhase 8 "Healthy" "AllPodsReady"]
      ([], twoObjects
        { healthyCluster with Status := { healthyCluster.Status with Phase := "Unknown" } }
        sampleCluster)).2 0).Status.Conditions = none ∧
    condTypes ((runSyncCalls sampleVocabulary
      (mergePatchClient
        { sampleCluster with
          Status := { sampleCluster.Status with
            Conditions := some [readinessCondition sampleVocabulary "Healthy",
              readinessCondition sampleVocabulary "Failing"] } }) 0
      [SyncCall.RegisterPhase 8 "Healthy" "AllPodsReady"]
      ([], twoObjects
        { healthyCluster with Status := { healthyCluster.Status with Phase := "Unknown" } }
        sampleCluster)).2 0).Status.Conditions = ["Ready", "Ready"] := by
  decide

/-- C3, what the code does.  When the cluster's status does not already hold
the phase, the reason and the derived readiness condition, a first call of
`RegisterPhase` issues exactly one status patch.  A second call with the same
phase and reason, on the cluster as the first call left it, issues no patch
exactly when that cluster holds the phase, the reason and the condition, and
then it makes no store call and leaves the cluster unchanged.  The cluster left
by the first call holds them when the first patch failed, and when the store's
reply carries the status it was sent. -/
theorem RegisterPhase_idempotent (v : Vocabulary) (cli cli2 : Client)
    (hist hist2 : List StoreCall) (now now2 : Time) (cluster : Cluster)
    (phase reason : String)
    (h : ¬ (cluster.Status.Phase = phase ∧ cluster.Status.PhaseReason = reason ∧
      holdsCondition cluster.Status.Conditions (readinessCondition v phase) = true)) :
    patchCount (RegisterPhase v cli hist now cluster phase reason).calls = 1 ∧
    (patchCount (RegisterPhase v cli2 hist2 now2
        (RegisterPhase v cli hist now cluster phase reason).cluster phase reason).calls = 0 ↔
      holdsPhase v phase reason
        (RegisterPhase v cli hist now cluster phase reason).cluster = true) ∧
    (holdsPhase v phase reason
        (RegisterPhase v cli hist now cluster phase reason).cluster = true →
      (RegisterPhase v cli2 hist2 now2
        (RegisterPhase v cli hist now cluster phase reason).cluster phase reason).calls = [] ∧
      (RegisterPhase v cli2 hist2 now2
        (RegisterPhase v cli hist now cluster phase reason).cluster phase reason).cluster =
        (RegisterPhase v cli hist now cluster phase reason).cluster) ∧
    ((RegisterPhase v cli hist now cluster phase reason).err ≠ none →
      holdsPhase v phase reason
        (RegisterPhase v cli hist now cluster phase reason).cluster = true) ∧
    ((∀ obj base reply, cli.StatusPatch hist obj base = Except.ok reply →
        reply.Status = obj.Status) →
      holdsPhase v phase reason
        (RegisterPhase v cli hist now cluster phase reason).cluster = true) := by
  have hne : cluster ≠ applyPhase v now cluster phase reason := by
    intro heq
    exact h (holds_of_applyPhase_fixed v now cluster phase reason heq.symm)
  have hbuilt := applyPhase_holds v now cluster phase reason
  -- the second call, on any cluster
  have hsecond : ∀ c : Cluster,
      (patchCount (RegisterPhase v cli2 hist2 now2 c phase reason).calls = 0 ↔
        holdsPhase v phase reason c = true) ∧
      (holdsPhase v phase reason c = true →
        (RegisterPhase v cli2 hist2 now2 c phase reason).calls = [] ∧
        (RegisterPhase v cli2 hist2 now2 c phase reason).cluster = c) := by
    intro c
    rcases RegisterPhase_cases v cli2 hist2 now2 c phase reason with
      ⟨he, hh, hc, _⟩ | ⟨hn, e, _, _, hc, _⟩ | ⟨hn, reply, _, _, hc, _⟩
    · have hold : holdsPhase v phase reason c = true :=
        (holdsPhase_iff v phase reason c).2
          (holds_of_applyPhase_fixed v now2 c phase reason he.symm)
      exact ⟨⟨fun _ => hold, fun _ => by rw [hc]; rfl⟩, fun _ => ⟨hc, hh⟩⟩
    · have hnot : ¬ holdsPhase v phase reason c = true := fun hold =>
        hn (applyPhase_fixed_of_holds v now2 c phase reason hold).symm
      refine ⟨⟨fun h0 => ?_, fun hold => absurd hold hnot⟩, fun hold => absurd hold hnot⟩
      rw [hc] at h0
      simp [patchCount, StoreCall.isPatch] at h0
    · have hnot : ¬ holdsPhase v phase reason c = true := fun hold =>
        hn (applyPhase_fixed_of_holds v now2 c phase reason hold).symm
      refine ⟨⟨fun h0 => ?_, fun hold => absurd hold hnot⟩, fun hold => absurd hold hnot⟩
      rw [hc] at h0
      simp [patchCount, StoreCall.isPatch] at h0
  refine ⟨?_, (hsecond _).1, (hsecond _).2, ?_, ?_⟩
  · rcases RegisterPhase_cases v cli hist now cluster phase reason with
      ⟨he, _, _, _⟩ | ⟨_, e, _, _, hc, _⟩ | ⟨_, reply, _, _, hc, _⟩
    · exact absurd he hne
    · rw [hc]; simp [patchCount, StoreCall.isPatch]
    · rw [hc]; simp [patchCount, StoreCall.isPatch]
  · intro herr
    rcases RegisterPhase_cases v cli hist now cluster phase reason with
      ⟨he, _, _, _⟩ | ⟨_, e, _, hh, _, _⟩ | ⟨_, reply, _, _, _, he⟩
    · exact absurd he hne
    · rw [hh]; exact hbuilt
    · exact absurd he herr
  · intro hstore
    rcases RegisterPhase_cases v cli hist now cluster phase reason with
      ⟨he, _, _, _⟩ | ⟨_, e, _, hh, _, _⟩ | ⟨_, reply, hp, hh, _, _⟩
    · exact absurd he hne
    · rw [hh]; exact hbuilt
    · rw [hh]
      have hs := hstore _ _ _ hp
      have : holdsPhase v phase reason reply =
          holdsPhase v phase reason (applyPhase v now cluster phase reason) := by
        unfold holdsPhase
        rw [hs]
      rw [this]; exact hbuilt

/-- C3 on the cluster of the end-to-end scenario, phase "Healthy", with a store
that replies with the object it was sent. -/
theorem RegisterPhase_idempotent_witness :
    ¬ (sampleCluster.Status.Phase = "Healthy" ∧
      sampleCluster.Status.PhaseReason = "AllPodsReady" ∧
      holdsCondition sampleCluster.Status.Conditions
        (readinessCondition sampleVocabulary "Healthy") = true) ∧
    patchCount (RegisterPhase sampleVocabulary okClient [] 7 sampleCluster "Healthy"
      "AllPodsReady").calls = 1 ∧
    (RegisterPhase sampleVocabulary okClient [] 8
      (RegisterPhase sampleVocabulary okClient [] 7 sampleCluster "Healthy"
        "AllPodsReady").cluster "Healthy" "AllPodsReady").calls = [] :=
  ⟨by decide,
    (RegisterPhase_idempotent sampleVocabulary okClient okClient [] [] 7 8 sampleCluster
      "Healthy" "AllPodsReady" (by decide)).1,
    ((RegisterPhase_idempotent sampleVocabulary okClient okClient [] [] 7 8 sampleCluster
      "Healthy" "AllPodsReady" (by decide)).2.2.1
      ((RegisterPhase_idempotent sampleVocabulary okClient okClient [] [] 7 8 sampleCluster
        "Healthy" "AllPodsReady" (by decide)).2.2.2.2
        (fun _ _ _ hr => by rw [← Except.ok.inj hr]))).1⟩

/-- C3 as stated fails.  The cluster in memory has the phase "Healthy" with an
empty reason, while the store holds the phase "Failing".  The first
`RegisterPhase("Healthy", "AllPodsReady")` patches the reason only, the patch
succeeds, and the reply brings the phase "Failing" into memory; the second call
with the same phase and reason issues a patch again. -/
theorem RegisterPhase_second_call_patches_again :
    ¬ (({ healthyCluster with
          Status := { healthyCluster.Status with PhaseReason := "" } }
          : Cluster).Status.Phase = "Healthy" ∧
      ({ healthyCluster with
          Status := { healthyCluster.Status with PhaseReason := "" } }
          : Cluster).Status.PhaseReason = "AllPodsReady" ∧
      holdsCondition ({ healthyCluster with
          Status := { healthyCluster.Status with PhaseReason := "" } }
          : Cluster).Status.Conditions
        (readinessCondition sampleVocabulary "Healthy") = true) ∧
    (RegisterPhase sampleVocabulary (mergePatchClient failingCluster) [] 8
      { healthyCluster with Status := { healthyCluster.Status with PhaseReason := "" } }
      "Healthy" "AllPodsReady").err = none ∧
    patchCount (RegisterPhase sampleVocabulary (mergePatchClient failingCluster) [] 8
      { healthyCluster with Status := { healthyCluster.Status with PhaseReason := "" } }
      "Healthy" "AllPodsReady").calls = 1 ∧
    (RegisterPhase sampleVocabulary (mergePatchClient failingCluster) [] 8
      { healthyCluster with Status := { healthyCluster.Status with PhaseReason := "" } }
      "Healthy" "AllPodsReady").cluster.Status.Phase = "Failing" ∧
    patchCount (RegisterPhase sampleVocabulary (mergePatchClient failingCluster)
      (RegisterPhase sampleVocabulary (mergePatchClient failingCluster) [] 8
        { healthyCluster with Status := { healthyCluster.Status with PhaseReason := "" } }
        "Healthy" "AllPodsReady").calls 9
      (RegisterPhase sampleVocabulary (mergePatchClient failingCluster) [] 8
        { healthyCluster with Status := { healthyCluster.Status with PhaseReason := "" } }
        "Healthy" "AllPodsReady").cluster "Healthy" "AllPodsReady").calls = 1 := by
  decide

/-- C4, what the code does.  `RegisterPhaseWithOrigCluster` writes no object
other than the one `modifiedCluster` points to, so `origCluster` is left as it
was whenever it is another object.  The cluster it sends as patch target
differs from `modifiedCluster` as it was on entry in `Status.Phase`,
`Status.PhaseReason` and `Status.Conditions` at most, and so does the cluster
left in memory when no patch is issued or the patch fails.  Whenever another
status field of `modifiedCluster` differs from a distinct `origCluster`, exactly
one status patch is issued, as the first store call, with `origCluster` as base
and a target whose other status fields carry the values of `modifiedCluster`.
After a successful patch `modifiedCluster` holds the reply of the store. -/
theorem RegisterPhaseWithOrigCluster_frame (v : Vocabulary) (cli : Client)
    (hist : List StoreCall) (now : Time) (heap : Heap) (modifiedCluster origCluster : Ptr)
    (phase reason : String) :
    (∀ p : Ptr, p ≠ modifiedCluster →
      (RegisterPhaseWithOrigCluster v cli hist now heap modifiedCluster origCluster phase
        reason).heap p = heap p) ∧
    (∀ obj base,
      StoreCall.statusPatch obj base ∈
        (RegisterPhaseWithOrigCluster v cli hist now heap modifiedCluster origCluster phase
          reason).calls →
      obj = { heap modifiedCluster with
              Status :=
                { (heap modifiedCluster).Status with
                  Phase := obj.Status.Phase
                  PhaseReason := obj.Status.PhaseReason
                  Conditions := obj.Status.Conditions } } ∧
      (origCluster ≠ modifiedCluster → base = heap origCluster)) ∧
    (((RegisterPhaseWithOrigCluster v cli hist now heap modifiedCluster origCluster phase
          reason).calls = [] ∨
        (RegisterPhaseWithOrigCluster v cli hist now heap modifiedCluster origCluster phase
          reason).err ≠ none) →
      (RegisterPhaseWithOrigCluster v cli hist now heap modifiedCluster origCluster phase
          reason).heap modifiedCluster =
        { heap modifiedCluster with
          Status :=
            { (heap modifiedCluster).Status with
              Phase := ((RegisterPhaseWithOrigCluster v cli hist now heap modifiedCluster
                origCluster phase reason).heap modifiedCluster).Status.Phase
              PhaseReason := ((RegisterPhaseWithOrigCluster v cli hist now heap
                modifiedCluster origCluster phase reason).heap modifiedCluster).Status.PhaseReason
              Conditions := ((RegisterPhaseWithOrigCluster v cli hist now heap
                modifiedCluster origCluster phase
                reason).heap modifiedCluster).Status.Conditions } }) ∧
    (origCluster ≠ modifiedCluster →
      ((heap modifiedCluster).Status.PluginStatus ≠ (heap origCluster).Status.PluginStatus ∨
        (heap modifiedCluster).Status.Other ≠ (heap origCluster).Status.Other) →
      ∃ obj,
        (RegisterPhaseWithOrigCluster v cli hist now heap modifiedCluster origCluster phase
          reason).calls.head? = some (StoreCall.statusPatch obj (heap origCluster)) ∧
        patchCount (RegisterPhaseWithOrigCluster v cli hist now heap modifiedCluster
          origCluster phase reason).calls = 1 ∧
        obj.Status.PluginStatus = (heap modifiedCluster).Status.PluginStatus ∧
        obj.Status.Other = (heap modifiedCluster).Status.Other) ∧
    (∀ obj base reply,
      StoreCall.statusPatch obj base ∈
        (RegisterPhaseWithOrigCluster v cli hist now heap modifiedCluster origCluster phase
          reason).calls →
      cli.StatusPatch hist obj base = Except.ok reply →
      (RegisterPhaseWithOrigCluster v cli hist now heap modifiedCluster origCluster phase
        reason).heap modifiedCluster = reply) := by
  have hcases := RegisterPhaseWithOrigCluster_cases v cli hist now heap modifiedCluster
    origCluster phase reason
  have hself := phaseHeap_self v now heap modifiedCluster phase reason
  have hframe : applyPhase v now (heap modifiedCluster) phase reason =
      { heap modifiedCluster with
        Status :=
          { (heap modifiedCluster).Status with
            Phase := (applyPhase v now (heap modifiedCluster) phase reason).Status.Phase
            PhaseReason :=
              (applyPhase v now (heap modifiedCluster) phase reason).Status.PhaseReason
            Conditions :=
              (applyPhase v now (heap modifiedCluster) phase reason).Status.Conditions } } :=
    rfl
  refine ⟨?_, ?_, ?_, ?_, (RegisterPhaseWithOrigCluster_reply_stored v cli
    hist now heap modifiedCluster origCluster phase reason)⟩
  · intro p hp
    rcases hcases with ⟨_, hh, _, _⟩ | ⟨_, e, _, hh, _, _⟩ | ⟨_, reply, _, hh, _, _⟩
    · rw [hh, phaseHeap_other _ _ _ _ _ _ _ hp]
    · rw [hh, phaseHeap_other _ _ _ _ _ _ _ hp]
    · rw [hh, Heap.write_other _ _ _ _ hp, phaseHeap_other _ _ _ _ _ _ _ hp]
  · intro obj base hm
    have hmem : obj = phaseHeap v now heap modifiedCluster phase reason modifiedCluster ∧
        base = phaseHeap v now heap modifiedCluster phase reason origCluster := by
      rcases hcases with ⟨_, _, hc, _⟩ | ⟨_, e, _, _, hc, _⟩ | ⟨_, reply, _, _, hc, _⟩
      · rw [hc] at hm; simp at hm
      · rw [hc] at hm
        simpa only [List.mem_singleton, StoreCall.statusPatch.injEq] using hm
      · rw [hc] at hm
        simpa only [List.mem_cons, StoreCall.statusPatch.injEq, List.mem_singleton,
          reduceCtorEq, or_false, List.not_mem_nil] using hm
    rw [hself] at hmem
    refine ⟨?_, fun hne => ?_⟩
    · rw [hmem.1]; exact hframe
    · rw [hmem.2, phaseHeap_other _ _ _ _ _ _ _ hne]
  · intro hor
    have hfin : (RegisterPhaseWithOrigCluster v cli hist now heap modifiedCluster origCluster
        phase reason).heap modifiedCluster =
        applyPhase v now (heap modifiedCluster) phase reason := by
      rcases hcases with ⟨_, hh, _, _⟩ | ⟨_, e, _, hh, _, _⟩ | ⟨_, reply, _, _, hc, he⟩
      · rw [hh, hself]
      · rw [hh, hself]
      · rcases hor with h1 | h1
        · rw [hc] at h1; simp at h1
        · exact absurd he h1
    rw [hfin]; exact hframe
  · intro hne hdiff
    have hother := phaseHeap_other v now heap modifiedCluster origCluster phase reason hne
    have hneq : phaseHeap v now heap modifiedCluster phase reason origCluster ≠
        phaseHeap v now heap modifiedCluster phase reason modifiedCluster := by
      rw [hother, hself]
      intro heq
      rcases hdiff with hd | hd
      · apply hd; rw [heq]; rfl
      · apply hd; rw [heq]; rfl
    refine ⟨applyPhase v now (heap modifiedCluster) phase reason, ?_, ?_, rfl, rfl⟩
    · rcases hcases with ⟨he, _, _, _⟩ | ⟨_, e, _, _, hc, _⟩ | ⟨_, reply, _, _, hc, _⟩
      · exact absurd he hneq
      · rw [hc, hself, hother]; rfl
      · rw [hc, hself, hother]; rfl
    · rcases hcases with ⟨he, _, _, _⟩ | ⟨_, e, _, _, hc, _⟩ | ⟨_, reply, _, _, hc, _⟩
      · exact absurd he hneq
      · rw [hc]; simp [patchCount, StoreCall.isPatch]
      · rw [hc]; simp [patchCount, StoreCall.isPatch]

/-- C4 at a snapshot taken before the plugin entry "barman" was filled in. -/
theorem RegisterPhaseWithOrigCluster_frame_witness :
    (1 : Ptr) ≠ 0 ∧
    ((twoObjects
      { sampleCluster with
        Status := { sampleCluster.Status with
          PluginStatus := some [{ Name := "barman", Status := "backup-ok" }] } }
      sampleCluster) 0).Status.PluginStatus ≠
      ((twoObjects
        { sampleCluster with
          Status := { sampleCluster.Status with
            PluginStatus := some [{ Name := "barman", Status := "backup-ok" }] } }
        sampleCluster) 1).Status.PluginStatus ∧
    ∃ obj,
      (RegisterPhaseWithOrigCluster sampleVocabulary okClient [] 7
        (twoObjects
          { sampleCluster with
            Status := { sampleCluster.Status with
              PluginStatus := some [{ Name := "barman", Status := "backup-ok" }] } }
          sampleCluster) 0 1 "Healthy" "AllPodsReady").calls.head? =
        some (StoreCall.statusPatch obj sampleCluster) ∧
      obj.Status.PluginStatus = some [{ Name := "barman", Status := "backup-ok" }] :=
  ⟨by decide, by decide,
    ((RegisterPhaseWithOrigCluster_frame sampleVocabulary okClient [] 7
      (twoObjects
        { sampleCluster with
          Status := { sampleCluster.Status with
            PluginStatus := some [{ Name := "barman", Status := "backup-ok" }] } }
        sampleCluster) 0 1 "Healthy" "AllPodsReady").2.2.2.1 (by decide)
      (Or.inl (by decide))).imp fun _ hobj => ⟨hobj.1, hobj.2.2.1⟩⟩

/-- C4 as stated fails.  After a successful patch the cluster in memory is the
reply of the store, here with a new resource version, a field outside the
status; and when `origCluster` is the object `modifiedCluster` points to, it is
written (its phase changes from "Unknown" to "Healthy") and no patch is issued. -/
theorem RegisterPhaseWithOrigCluster_changes_other_fields :
    ((twoObjects sampleCluster sampleCluster) 0).Rest = [] ∧
    ((RegisterPhaseWithOrigCluster sampleVocabulary versioningClient [] 7
      (twoObjects sampleCluster sampleCluster) 0 1 "Healthy" "AllPodsReady").heap 0).Rest =
      [("metadata.resourceVersion", "42")] ∧
    ((twoObjects sampleCluster sampleCluster) 0).Status.Phase = "Unknown" ∧
    ((RegisterPhaseWithOrigCluster sampleVocabulary okClient [] 7
      (twoObjects sampleCluster sampleCluster) 0 0 "Healthy"
      "AllPodsReady").heap 0).Status.Phase = "Healthy" ∧
    (RegisterPhaseWithOrigCluster sampleVocabulary okClient [] 7
      (twoObjects sampleCluster sampleCluster) 0 0 "Healthy" "AllPodsReady").calls = [] := by
  decide

/-- C8, what the code does: `RegisterPhaseWithOrigCluster` returns a non-nil
error exactly when it issues a status patch (the cluster it built differs from
`origCluster`) and that patch fails, the error returned being the patch's error
unmodified; a failed patch is followed by no other store call (no retry, at
most one patch in all); whether the read after a successful patch fails has no
bearing on the returned error. -/
theorem RegisterPhaseWithOrigCluster_returns_patch_error (v : Vocabulary) (cli : Client)
    (hist : List StoreCall) (now : Time) (heap : Heap) (modifiedCluster origCluster : Ptr)
    (phase reason : String) :
    (∀ e : Error,
      (RegisterPhaseWithOrigCluster v cli hist now heap modifiedCluster origCluster phase
        reason).err = some e ↔
      (phaseHeap v now heap modifiedCluster phase reason origCluster ≠
          phaseHeap v now heap modifiedCluster phase reason modifiedCluster ∧
        cli.StatusPatch hist
          (phaseHeap v now heap modifiedCluster phase reason modifiedCluster)
          (phaseHeap v now heap modifiedCluster phase reason origCluster) =
          Except.error e)) ∧
    (∀ e : Error,
      (RegisterPhaseWithOrigCluster v cli hist now heap modifiedCluster origCluster phase
        reason).err = some e →
      (RegisterPhaseWithOrigCluster v cli hist now heap modifiedCluster origCluster phase
        reason).calls =
        [StoreCall.statusPatch
          (phaseHeap v now heap modifiedCluster phase reason modifiedCluster)
          (phaseHeap v now heap modifiedCluster phase reason origCluster)] ∧
      (RegisterPhaseWithOrigCluster v cli hist now heap modifiedCluster origCluster phase
        reason).heap modifiedCluster =
        phaseHeap v now heap modifiedCluster phase reason modifiedCluster) ∧
    patchCount (RegisterPhaseWithOrigCluster v cli hist now heap modifiedCluster origCluster
      phase reason).calls ≤ 1 := by
  rcases RegisterPhaseWithOrigCluster_cases v cli hist now heap modifiedCluster origCluster
      phase reason with
    ⟨heq, hh, hc, he⟩ | ⟨hne, e0, hp, hh, hc, he⟩ | ⟨hne, reply, hp, hh, hc, he⟩
  · refine ⟨fun e => ?_, fun e hee => ?_, ?_⟩
    · rw [he]; simp [heq]
    · rw [he] at hee; cases hee
    · rw [hc]; simp [patchCount]
  · refine ⟨fun e => ?_, fun e hee => ?_, ?_⟩
    · rw [he, hp]
      simp only [Option.some.injEq, ne_eq, hne, not_false_eq_true, Except.error.injEq,
        true_and]
    · exact ⟨hc, by rw [hh]⟩
    · rw [hc]; simp [patchCount, StoreCall.isPatch]
  · refine ⟨fun e => ?_, fun e hee => ?_, ?_⟩
    · rw [he, hp]; simp
    · rw [he] at hee; cases hee
    · rw [hc]; simp [patchCount, StoreCall.isPatch]

/-- C8 as stated fails: with a store whose patch succeeds and whose read fails,
`RegisterPhaseWithOrigCluster` makes both calls, the read fails, and the
function returns a nil error. -/
theorem RegisterPhaseWithOrigCluster_swallows_read_error :
    (RegisterPhaseWithOrigCluster sampleVocabulary failingGetClient [] 7
      (twoObjects sampleCluster sampleCluster) 0 1 "Healthy" "AllPodsReady").calls =
      [StoreCall.statusPatch
          (applyPhase sampleVocabulary 7 sampleCluster "Healthy" "AllPodsReady")
          sampleCluster,
        StoreCall.get "default" "pg"] ∧
    failingGetClient.Get
      [StoreCall.statusPatch
          (applyPhase sampleVocabulary 7 sampleCluster "Healthy" "AllPodsReady")
          sampleCluster] "default" "pg" = some ⟨"not found"⟩ ∧
    (RegisterPhaseWithOrigCluster sampleVocabulary failingGetClient [] 7
      (twoObjects sampleCluster sampleCluster) 0 1 "Healthy" "AllPodsReady").err = none := by
  decide

/-! ## The plugin hooks: lemmas -/

/-- The range loop leaves the slice as it was. -/
theorem pluginStatusLoop_fst (statuses : List (String × String)) (entries : List PluginStatus) :
    (pluginStatusLoop statuses entries).1 = entries := by
  induction entries with
  | nil => rfl
  | cons e es ih => simp [pluginStatusLoop, ih]

/-- The values the loop variable ends with are the merge the specification
describes; they are never stored. -/
theorem pluginStatusLoop_snd (statuses : List (String × String)) (entries : List PluginStatus) :
    (pluginStatusLoop statuses entries).2 = mergePluginStatusSpec statuses entries := by
  induction entries with
  | nil => rfl
  | cons e es ih =>
    simp only [pluginStatusLoop, ih, mergePluginStatusSpec, List.map_cons, List.cons.injEq,
      and_true]
    unfold pluginStatusLoopBody
    cases h : List.lookup e.Name statuses <;> rfl

/-- The loop leaves the cluster as it was. -/
theorem afterPluginStatusLoop_eq (statuses : List (String × String)) (cluster : Cluster) :
    afterPluginStatusLoop statuses cluster = cluster := by
  unfold afterPluginStatusLoop
  cases h : cluster.Status.PluginStatus with
  | none =>
    simp only
    rw [← h]
  | some entries =>
    simp only [pluginStatusLoop_fst]
    rw [← h]

/-- The store calls of `setStatusPluginHook`: one status patch of the cluster
against its snapshot when the query answers a non-empty mapping, none otherwise. -/
theorem setStatusPluginHook_calls (ctx : Context) (cli : Client) (hist : List StoreCall)
    (cluster : Cluster) :
    (setStatusPluginHook ctx cli hist cluster).calls =
      match getPluginClientFromContext ctx with
      | Except.error _ => []
      | Except.ok pluginClient =>
        match pluginClient.SetClusterStatus cluster with
        | (_, some _) => []
        | (statuses, none) =>
          if statuses = [] then [] else [StoreCall.statusPatch cluster cluster] := by
  unfold setStatusPluginHook
  simp only [afterPluginStatusLoop_eq, Cluster.DeepCopy]
  split
  · rfl
  · split
    · rfl
    · rename_i statuses hq
      by_cases hs : statuses = []
      · simp [hs]
      · have hl : ¬ statuses.length = 0 := by simpa using hs
        simp only [hl, hs, if_false]
        split <;> rfl

/-- The returned pair of `setStatusPluginHook` once the query answered a
non-empty mapping: a requeue after five seconds, with the error of the patch. -/
theorem setStatusPluginHook_result_nonempty (ctx : Context) (cli : Client)
    (hist : List StoreCall) (cluster : Cluster) (pluginClient : PluginClient)
    (statuses : List (String × String))
    (hctx : getPluginClientFromContext ctx = Except.ok pluginClient)
    (hq : pluginClient.SetClusterStatus cluster = (statuses, none))
    (hs : statuses ≠ []) :
    (setStatusPluginHook ctx cli hist cluster).result =
      Except.ok ({ Requeue := false, RequeueAfter := 5 * Second },
        match cli.StatusPatch hist (afterPluginStatusLoop statuses cluster)
            cluster.DeepCopy with
        | Except.error err => some err
        | Except.ok _ => none) := by
  have hl : ¬ statuses.length = 0 := by simpa using hs
  unfold setStatusPluginHook
  simp only [hctx, hq, hl, if_false]
  split <;> rfl

/-! ## The plugin hooks: claims -/

/-- C1, at the input of property P4: entries "A" and "B", mapping
`{A: "x", C: "y"}`.  After `setStatusPluginHook` the cluster's plugin status
list is the original one, entry "A" still with its empty status, whereas the
merge the specification describes gives "A" the status "x"; the patch is issued
with a target equal to its base. -/
theorem setStatusPluginHook_loses_plugin_status :
    (setStatusPluginHook
      (setPluginClientInContext Context.background
        (some (mappingClient [("A", "x"), ("C", "y")])))
      okClient [] clusterAB).cluster.Status.PluginStatus =
      some [{ Name := "A", Status := "" }, { Name := "B", Status := "b" }] ∧
    mergePluginStatusSpec [("A", "x"), ("C", "y")]
      [{ Name := "A", Status := "" }, { Name := "B", Status := "b" }] =
      [{ Name := "A", Status := "x" }, { Name := "B", Status := "b" }] ∧
    (setStatusPluginHook
      (setPluginClientInContext Context.background
        (some (mappingClient [("A", "x"), ("C", "y")])))
      okClient [] clusterAB).calls = [StoreCall.statusPatch clusterAB clusterAB] := by
  decide

/-- C2, at a store that rejects the patch with a conflict: `setStatusPluginHook`
returns the patch error together with a requeue delay of five seconds, not a
zero `RequeueAfter`. -/
theorem setStatusPluginHook_requeues_on_patch_failure :
    (setStatusPluginHook
      (setPluginClientInContext Context.background
        (some (mappingClient [("barman", "backup-ok")])))
      conflictClient [] sampleCluster).result =
      Except.ok ({ Requeue := false, RequeueAfter := 5000000000 }, some ⟨"conflict"⟩) ∧
    conflictClient.StatusPatch [] sampleCluster sampleCluster =
      Except.error ⟨"conflict"⟩ := by
  constructor <;> rfl

/-- C9. When the plugin status query succeeds: with an empty mapping
`setStatusPluginHook` makes no store call and returns a zero `Result` (no
requeue) with a nil error; with a non-empty mapping whose patch succeeds it
makes exactly one store call, a status patch, and returns a requeue delay of
exactly five seconds with a nil error. -/
theorem setStatusPluginHook_requeue (ctx : Context) (cli : Client) (hist : List StoreCall)
    (cluster : Cluster) (pluginClient : PluginClient) (statuses : List (String × String))
    (hctx : getPluginClientFromContext ctx = Except.ok pluginClient)
    (hq : pluginClient.SetClusterStatus cluster = (statuses, none)) :
    (statuses = [] →
      (setStatusPluginHook ctx cli hist cluster).calls = [] ∧
      (setStatusPluginHook ctx cli hist cluster).result =
        Except.ok ({ Requeue := false, RequeueAfter := 0 }, none)) ∧
    (statuses ≠ [] →
      ∀ reply : Cluster,
      cli.StatusPatch hist (afterPluginStatusLoop statuses cluster) cluster.DeepCopy =
        Except.ok reply →
      (setStatusPluginHook ctx cli hist cluster).calls.length = 1 ∧
      patchCount (setStatusPluginHook ctx cli hist cluster).calls = 1 ∧
      (setStatusPluginHook ctx cli hist cluster).result =
        Except.ok ({ Requeue := false, RequeueAfter := 5 * 1000000000 }, none)) := by
  constructor
  · intro hs
    subst hs
    unfold setStatusPluginHook
    simp [hctx, hq]
  · intro hs reply hp
    rw [setStatusPluginHook_calls, setStatusPluginHook_result_nonempty ctx cli hist cluster
      pluginClient statuses hctx hq hs, hp]
    simp [hctx, hq, hs, patchCount, StoreCall.isPatch, Second]

/-- C9 at the end-to-end scenario (mapping `{barman: "backup-ok"}`) and at an
empty mapping. -/
theorem setStatusPluginHook_requeue_witness :
    (setStatusPluginHook
      (setPluginClientInContext Context.background
        (some (mappingClient [("barman", "backup-ok")])))
      okClient [] sampleCluster).result =
      Except.ok ({ Requeue := false, RequeueAfter := 5 * 1000000000 }, none) ∧
    (setStatusPluginHook
      (setPluginClientInContext Context.background (some (mappingClient [])))
      okClient [] sampleCluster).calls = [] :=
  ⟨((setStatusPluginHook_requeue
      (setPluginClientInContext Context.background
        (some (mappingClient [("barman", "backup-ok")])))
      okClient [] sampleCluster (mappingClient [("barman", "backup-ok")])
      [("barman", "backup-ok")] rfl rfl).2 (by simp)
      (afterPluginStatusLoop [("barman", "backup-ok")] sampleCluster) rfl).2.2,
    ((setStatusPluginHook_requeue
      (setPluginClientInContext Context.background (some (mappingClient [])))
      okClient [] sampleCluster (mappingClient []) [] rfl rfl).1 rfl).1⟩

/-- C10. Resolving the plugin client from a context it was just attached to
returns that client; on a context whose value under the plugin-client key is
not a plugin client (nothing attached, a `nil` client, or a value of another
type) `getPluginClientFromContext` panics, and `preReconcilePluginHooks`,
`postReconcilePluginHooks` and `setStatusPluginHook` panic with it, having made
no plugin call and no store call. -/
theorem plugin_client_context_contract :
    (∀ (ctx : Context) (c : PluginClient),
      getPluginClientFromContext (setPluginClientInContext ctx (some c)) = Except.ok c) ∧
    (∀ ctx : Context,
      (∀ c : PluginClient, ctx.Value ContextKey.PluginClientKey ≠ Any.pluginClient c) →
      (∃ p, getPluginClientFromContext ctx = Except.error p) ∧
      ∀ (cluster : Cluster) (object : Object) (cli : Client) (hist : List StoreCall),
        ((preReconcilePluginHooks ctx cluster object).pluginCalls = [] ∧
          ∃ p, (preReconcilePluginHooks ctx cluster object).result = Except.error p) ∧
        ((postReconcilePluginHooks ctx cluster object).pluginCalls = [] ∧
          ∃ p, (postReconcilePluginHooks ctx cluster object).result = Except.error p) ∧
        ((setStatusPluginHook ctx cli hist cluster).pluginCalls = [] ∧
          (setStatusPluginHook ctx cli hist cluster).calls = [] ∧
          ∃ p, (setStatusPluginHook ctx cli hist cluster).result = Except.error p)) := by
  constructor
  · intro ctx c
    simp [getPluginClientFromContext, setPluginClientInContext, Context.Value, toAny]
  · intro ctx hno
    have hp : ∃ p, getPluginClientFromContext ctx = Except.error p := by
      unfold getPluginClientFromContext
      cases hv : ctx.Value ContextKey.PluginClientKey with
      | nil => exact ⟨_, rfl⟩
      | pluginClient c => exact absurd hv (hno c)
      | other x => exact ⟨_, rfl⟩
    obtain ⟨p, hp⟩ := hp
    refine ⟨⟨p, hp⟩, fun cluster object cli hist => ⟨?_, ?_, ?_⟩⟩
    · simp [preReconcilePluginHooks, hp]
    · simp [postReconcilePluginHooks, hp]
    · simp [setStatusPluginHook, hp]

/-- C10 on the background context, which carries no value at all. -/
theorem plugin_client_context_contract_witness :
    (∀ c : PluginClient,
      Context.background.Value ContextKey.PluginClientKey ≠ Any.pluginClient c) ∧
    (preReconcilePluginHooks Context.background sampleCluster ⟨"pod-1"⟩).pluginCalls = [] ∧
    getPluginClientFromContext
      (setPluginClientInContext Context.background (some (mappingClient []))) =
      Except.ok (mappingClient []) :=
  ⟨fun _ h => by simp [Context.Value] at h,
    ((plugin_client_context_contract.2 Context.background
      (fun _ h => by simp [Context.Value] at h)).2 sampleCluster ⟨"pod-1"⟩ okClient []).1.1,
    plugin_client_context_contract.1 Context.background (mappingClient [])⟩

/-- C7, what the code does.  `RegisterPhase` issues a status patch only with
its snapshot as base and a target whose status differs from the snapshot's;
`RegisterPhaseWithOrigCluster` issues one exactly when the cluster it built, as
a whole object, differs from `origCluster`; `setStatusPluginHook` issues one
exactly when the plugin status query succeeds with a non-empty mapping, without
comparing the cluster with its snapshot. -/
theorem patch_issue_conditions (v : Vocabulary) (cli : Client) (hist : List StoreCall)
    (now : Time) :
    (∀ (cluster : Cluster) (phase reason : String) (obj base : Cluster),
      StoreCall.statusPatch obj base ∈
        (RegisterPhase v cli hist now cluster phase reason).calls →
      base = cluster ∧ obj.Status ≠ cluster.Status) ∧
    (∀ (heap : Heap) (modifiedCluster origCluster : Ptr) (phase reason : String),
      patchCount (RegisterPhaseWithOrigCluster v cli hist now heap modifiedCluster
        origCluster phase reason).calls ≠ 0 ↔
      phaseHeap v now heap modifiedCluster phase reason modifiedCluster ≠
        phaseHeap v now heap modifiedCluster phase reason origCluster) ∧
    (∀ (ctx : Context) (cluster : Cluster),
      patchCount (setStatusPluginHook ctx cli hist cluster).calls ≠ 0 ↔
      ∃ pluginClient statuses,
        getPluginClientFromContext ctx = Except.ok pluginClient ∧
        pluginClient.SetClusterStatus cluster = (statuses, none) ∧ statuses ≠ []) := by
  refine ⟨?_, ?_, ?_⟩
  · intro cluster phase reason obj base hm
    have key : ∀ hne : cluster ≠ applyPhase v now cluster phase reason,
        StoreCall.statusPatch obj base =
          StoreCall.statusPatch (applyPhase v now cluster phase reason) cluster →
        base = cluster ∧ obj.Status ≠ cluster.Status := by
      intro hne heq
      simp only [StoreCall.statusPatch.injEq] at heq
      refine ⟨heq.2, fun hs => hne ?_⟩
      rw [heq.1] at hs
      exact (applyPhase_eq_of_status_eq v now cluster phase reason hs).symm
    rcases RegisterPhase_cases v cli hist now cluster phase reason with
      ⟨_, _, hc, _⟩ | ⟨hne, e, _, _, hc, _⟩ | ⟨hne, reply, _, _, hc, _⟩
    · rw [hc] at hm; simp at hm
    · rw [hc] at hm
      exact key hne (by simpa using hm)
    · rw [hc] at hm
      simp only [List.mem_cons, List.mem_singleton, reduceCtorEq, or_false,
        List.not_mem_nil] at hm
      exact key hne hm
  · intro heap pm po phase reason
    rcases RegisterPhaseWithOrigCluster_cases v cli hist now heap pm po phase reason with
      ⟨heq, _, hc, _⟩ | ⟨hne, e, _, _, hc, _⟩ | ⟨hne, reply, _, _, hc, _⟩
    · rw [hc]; simp [patchCount, heq]
    · have h2 : phaseHeap v now heap pm phase reason pm ≠
          phaseHeap v now heap pm phase reason po := fun e => hne e.symm
      rw [hc]; simp [patchCount, StoreCall.isPatch, h2]
    · have h2 : phaseHeap v now heap pm phase reason pm ≠
          phaseHeap v now heap pm phase reason po := fun e => hne e.symm
      rw [hc]; simp [patchCount, StoreCall.isPatch, h2]
  · intro ctx cluster
    rw [setStatusPluginHook_calls]
    cases hc : getPluginClientFromContext ctx with
    | error p => simp [patchCount]
    | ok pc =>
      rcases hq : pc.SetClusterStatus cluster with ⟨statuses, _ | err⟩
      · by_cases hs : statuses = []
        · simp [hq, hs, patchCount]
        · simp [hq, hs, patchCount, StoreCall.isPatch]
      · simp [hq, patchCount]

/-- C7 as stated fails.  With the mapping `{C: "y"}`, which names no entry of
the cluster, `setStatusPluginHook` issues a patch although the cluster equals
its snapshot; and `RegisterPhaseWithOrigCluster`, given a snapshot that differs
from the cluster outside the status only, issues a patch although the status
of its target equals the snapshot's status. -/
theorem patch_issued_without_status_change :
    patchCount (setStatusPluginHook
      (setPluginClientInContext Context.background (some (mappingClient [("C", "y")])))
      okClient [] clusterAB).calls = 1 ∧
    (setStatusPluginHook
      (setPluginClientInContext Context.background (some (mappingClient [("C", "y")])))
      okClient [] clusterAB).calls = [StoreCall.statusPatch clusterAB clusterAB] ∧
    (setStatusPluginHook
      (setPluginClientInContext Context.background (some (mappingClient [("C", "y")])))
      okClient [] clusterAB).cluster.Status = clusterAB.Status ∧
    patchCount (RegisterPhaseWithOrigCluster sampleVocabulary okClient [] 8
      (twoObjects healthyCluster { healthyCluster with Rest := [("spec.instances", "3")] })
      0 1 "Healthy" "AllPodsReady").calls = 1 ∧
    (RegisterPhaseWithOrigCluster sampleVocabulary okClient [] 8
      (twoObjects healthyCluster { healthyCluster with Rest := [("spec.instances", "3")] })
      0 1 "Healthy" "AllPodsReady").calls.head? =
      some (StoreCall.statusPatch healthyCluster
        { healthyCluster with Rest := [("spec.instances", "3")] }) ∧
    healthyCluster.Status =
      ({ healthyCluster with Rest := [("spec.instances", "3")] } : Cluster).Status := by
  decide

end CNPG
